import Mathlib

/-!
# SLiM `GenomicElementType` (core/genomic_element_type.cpp)

A shallow embedding of the genomic element type descriptor: the constructor,
`InitializeDraws`, `DrawMutationType`, `GetProperty`, `SetProperty` and
`ExecuteInstanceMethod` (`setMutationFractions`), followed by the properties
proved about them.

Conventions of the embedding.

* A method that mutates `this` is a function from the object to an `Outcome`
  paired with the object as the method leaves it; when the method terminates
  with `EIDOS_TERMINATION`, the object returned is the object at the moment of
  the termination.
* `double` values are observed by the code only through ordered comparisons
  with zero, so a `Double` is a NaN, a finite value or an infinity, and the
  comparisons follow IEEE-754 (every ordered comparison with NaN is false).
* `new` takes the next free address from an allocation counter that is passed
  along; two `EidosValue *` are the same object when they are equal as
  `EidosValuePtr`.
-/

namespace SLiM

/-! ## Values -/

/-- A C `double`. -/
inductive Double where
  | nan
  | finite (q : ℚ)
  | inf (negative : Bool)
  deriving DecidableEq

namespace Double

/-- The C test `x < 0`. -/
def lt0 : Double → Bool
  | nan => false
  | finite q => decide (q < 0)
  | inf negative => negative

/-- The C test `x > 0.0`. -/
def gt0 : Double → Bool
  | nan => false
  | finite q => decide (0 < q)
  | inf negative => !negative

/-- The C test `x >= 0`. -/
def ge0 : Double → Bool
  | nan => false
  | finite q => decide (0 ≤ q)
  | inf negative => !negative

/-- The C test `x == 0`. -/
def eq0 : Double → Bool
  | nan => false
  | finite q => decide (q = 0)
  | inf _ => false

/-- The value is a NaN (`std::isnan`). -/
def isNaN : Double → Bool
  | nan => true
  | _ => false

end Double

/-- A non-null `MutationType *`; pointers are compared by address. -/
structure MutationTypePtr where
  addr : Nat
  deriving DecidableEq

/-- The identifiers of `EidosGlobalStringID` this file switches on; every other
identifier is `other n`. -/
inductive EidosGlobalStringID where
  | gID_none
  | gID_id
  | gID_mutationTypes
  | gID_mutationFractions
  | gID_tag
  | gID_setMutationFractions
  | other (n : Nat)
  deriving DecidableEq

/-- The contents of an `EidosValue`, as far as this file builds or reads them. -/
inductive EidosValue where
  | NULL
  | Int_singleton (v : Int)
  | Int_vector (vs : List Int)
  | Float_vector (vs : List Double)
  | Object_vector (ps : List MutationTypePtr)
  deriving DecidableEq

/-- An `EidosValue *`: the static `gStaticEidosValueNULLInvisible`, or an object
made by `new` at address `addr`. -/
inductive EidosValuePtr where
  | gStaticEidosValueNULLInvisible
  | heap (addr : Nat) (value : EidosValue)
  deriving DecidableEq

/-- The fatal errors (`EIDOS_TERMINATION ... eidos_terminate()`), named after the
error taxonomy of the specification where it has a name for them. -/
inductive Error where
  /-- Raised by `InitializeDraws`: "mutation types and fractions have different sizes". -/
  | InitializeDraws_sizes
  /-- Raised by `DrawMutationType`: "empty mutation type vector for genomic element type". -/
  | SamplingError
  /-- Raised by `setMutationFractions`: "requires the sizes of mutationTypes and proportions to be equal". -/
  | LengthMismatchError
  /-- Raised by `setMutationFractions`: "proportions must be greater than or equal to zero". -/
  | NegativeWeightError (proportion : Double)
  /-- Raised by `setMutationFractions`: "mutation type m... not defined". -/
  | NotDefinedError (mutation_type_id : Int)
  /-- Raised by `setMutationFractions`: "mutation type m... used more than once". -/
  | DuplicateCategoryError (mutation_type_ptr : MutationTypePtr)
  /-- Raised by `SLiMCastToObjectidTypeOrRaise`. -/
  | ObjectidRangeError (v : Int)
  /-- Raised by `SLiMCastToUsertagTypeOrRaise`. -/
  | UsertagRangeError (v : Int)
  /-- An `EidosValue` accessor was used on a value of another type. -/
  | TypeError
  /-- An `EidosValue` accessor was used with an index past the end. -/
  | RangeError
  /-- The GSL error handler was called by `gsl_ran_discrete_preproc`. -/
  | GSLError
  /-- A `std::vector` was indexed past its end (undefined behaviour in the source). -/
  | OutOfBounds
  deriving DecidableEq

/-- How a call ends: it returns a value, it terminates with a fatal error, or it
hands the request to the base class `EidosObjectElement` (not part of this file). -/
inductive Outcome (α : Type) where
  | value (v : α)
  | terminated (e : Error)
  | baseClass
  deriving DecidableEq

/-! ## EidosValue accessors -/

namespace EidosValue

/-- The method `Count()`. -/
def Count : EidosValue → Nat
  | NULL => 0
  | Int_singleton _ => 1
  | Int_vector vs => vs.length
  | Float_vector vs => vs.length
  | Object_vector ps => ps.length

/-- The test `Type() == EidosValueType::kValueInt`. -/
def isInt : EidosValue → Bool
  | Int_singleton _ => true
  | Int_vector _ => true
  | _ => false

/-- The method `IntAtIndex(idx, nullptr)`, on the integer values the signatures of this
class admit. -/
def IntAtIndex : EidosValue → Nat → Except Error Int
  | Int_singleton v, idx => if idx = 0 then .ok v else .error .RangeError
  | Int_vector vs, idx =>
    match vs[idx]? with
    | some v => .ok v
    | none => .error .RangeError
  | _, _ => .error .TypeError

/-- The method `FloatAtIndex(idx, nullptr)`: a float element, or an integer element
converted to `double`. -/
def FloatAtIndex : EidosValue → Nat → Except Error Double
  | Float_vector vs, idx =>
    match vs[idx]? with
    | some v => .ok v
    | none => .error .RangeError
  | Int_singleton v, idx => if idx = 0 then .ok (.finite v) else .error .RangeError
  | Int_vector vs, idx =>
    match vs[idx]? with
    | some v => .ok (.finite v)
    | none => .error .RangeError
  | _, _ => .error .TypeError

/-- The method `ObjectElementAtIndex(idx, nullptr)` followed by
`dynamic_cast<MutationType *>`; the method signature admits only objects of class
`MutationType`. -/
def ObjectElementAtIndex : EidosValue → Nat → Except Error MutationTypePtr
  | Object_vector ps, idx =>
    match ps[idx]? with
    | some p => .ok p
    | none => .error .RangeError
  | _, _ => .error .TypeError

end EidosValue

/-! ## Collaborators outside this file -/

/-- The simulation, as far as `setMutationFractions` reads it: `MutationTypes()` is a
`std::map<slim_objectid_t,MutationType*>`, here its entries in key order. -/
structure SLiMSim where
  MutationTypes : List (Int × MutationTypePtr)

/-- The interpreter, as far as `setMutationFractions` reads it: the result of
`dynamic_cast<SLiMSim *>(p_interpreter.GetEidosContext())`. -/
structure EidosInterpreter where
  GetEidosContext : Option SLiMSim

/-- The range checks of `slim_global.h` (declared outside this file): which 64-bit
integers `SLiMCastToObjectidTypeOrRaise` and `SLiMCastToUsertagTypeOrRaise` accept. -/
structure SlimGlobal where
  objectid_in_range : Int → Bool
  usertag_in_range : Int → Bool

/-- The helper `SLiMCastToObjectidTypeOrRaise`: the value itself, or a raise. -/
def SLiMCastToObjectidTypeOrRaise (G : SlimGlobal) (v : Int) : Except Error Int :=
  if G.objectid_in_range v then .ok v else .error (.ObjectidRangeError v)

/-- The helper `SLiMCastToUsertagTypeOrRaise`: the value itself, or a raise. -/
def SLiMCastToUsertagTypeOrRaise (G : SlimGlobal) (v : Int) : Except Error Int :=
  if G.usertag_in_range v then .ok v else .error (.UsertagRangeError v)

/-- The lookup table `gsl_ran_discrete_t` of the GSL, identified by the arguments
it was built from. -/
structure gsl_ran_discrete_t where
  K : Nat
  P : List Double
  deriving DecidableEq

/-- The GSL function `gsl_ran_discrete_preproc(K, P)`: it calls the GSL error handler
(`none`) when `K < 1` or some `P[k] < 0`, and otherwise builds the table. -/
def gsl_ran_discrete_preproc (K : Nat) (P : List Double) : Option gsl_ran_discrete_t :=
  if K < 1 then none
  else if P.any Double.lt0 then none
  else some { K := K, P := P }

/-- Modelled from the spec: the function `gsl_ran_discrete(rng, table)` of the sampler, which
is not among the sources. The specification gives its contract: "the probability of
returning index `i` is `weights[i] / sum(weights)`. Zero-weight entries are legal and simply
never drawn". The random source is not modelled; `gsl_ran_discrete_returns table drawn`
says that `drawn` is an index the draw can return, an entry of the table with a weight
`> 0`. -/
def gsl_ran_discrete_returns (table : gsl_ran_discrete_t) (drawn : Nat) : Bool :=
  match table.P[drawn]? with
  | some w => w.gt0
  | none => false

/-! ## The class -/

/-- The data members of `GenomicElementType` this file reads or writes. -/
structure GenomicElementType where
  lookup_mutation_type_ : Option gsl_ran_discrete_t
  cached_value_getype_id_ : Option EidosValuePtr
  genomic_element_type_id_ : Int
  mutation_type_ptrs_ : List MutationTypePtr
  mutation_fractions_ : List Double
  tag_value_ : Int
  deriving DecidableEq

/-- Modelled from the spec: the default member initialiser of `tag_value_` in
`genomic_element_type.h`, which is not among the sources; the constructor in
`genomic_element_type.cpp` does not assign the member. The specification says
"`tag`: mutable integer scratch value, default 0". -/
def tag_value_default : Int := 0

namespace GenomicElementType

/-- The method `GenomicElementType::InitializeDraws` (lines 53-89). -/
def InitializeDraws (self : GenomicElementType) : Outcome Unit × GenomicElementType :=
  let mutation_type_count := self.mutation_type_ptrs_.length
  if mutation_type_count ≠ self.mutation_fractions_.length then
    (.terminated .InitializeDraws_sizes, self)
  else
    -- lines 60-64: free the old table
    let self := { self with lookup_mutation_type_ := none }
    if mutation_type_count ≠ 0 then
      -- lines 74-82: `i` runs over `0 .. mutation_type_count - 1`, the indices of `mutation_fractions_`
      let (A, nonzero_seen) := self.mutation_fractions_.foldl
        (fun (acc : List Double × Bool) fraction => (acc.1 ++ [fraction], acc.2 || fraction.gt0))
        ([], false)
      if nonzero_seen then
        match gsl_ran_discrete_preproc mutation_type_count A with
        | some table => (.value (), { self with lookup_mutation_type_ := some table })
        | none => (.terminated .GSLError, self)
      else
        (.value (), self)
    else
      (.value (), self)

/-- The constructor `GenomicElementType::GenomicElementType` (lines 30-34). The members
it does not name start from the default member initialisers of `genomic_element_type.h`
(not among the sources): the two owned pointers are null, as the null tests of
`InitializeDraws`, `GetProperty` and the destructor presuppose, and the tag is
`tag_value_default`. When `InitializeDraws` terminates, no object is constructed. -/
def new (p_genomic_element_type_id : Int) (p_mutation_type_ptrs : List MutationTypePtr)
    (p_mutation_fractions : List Double) : Outcome GenomicElementType :=
  let self : GenomicElementType :=
    { lookup_mutation_type_ := none
      cached_value_getype_id_ := none
      genomic_element_type_id_ := p_genomic_element_type_id
      mutation_type_ptrs_ := p_mutation_type_ptrs
      mutation_fractions_ := p_mutation_fractions
      tag_value_ := tag_value_default }
  match InitializeDraws self with
  | (.value _, self) => .value self
  | (.terminated e, _) => .terminated e
  | (.baseClass, _) => .baseClass

/-- The method `GenomicElementType::DrawMutationType` (lines 91-97); `drawn` is the
index returned by `gsl_ran_discrete(gEidos_rng, lookup_mutation_type_)`. -/
def DrawMutationType (self : GenomicElementType) (drawn : Nat) : Outcome MutationTypePtr :=
  match self.lookup_mutation_type_ with
  | none => .terminated .SamplingError
  | some _ =>
    match self.mutation_type_ptrs_[drawn]? with
    | some p => .value p
    | none => .terminated .OutOfBounds

/-- The method `GenomicElementType::GetProperty` (lines 176-210); `alloc` is the
allocation counter, returned updated. -/
def GetProperty (self : GenomicElementType) (alloc : Nat) (p_property_id : EidosGlobalStringID) :
    Outcome EidosValuePtr × GenomicElementType × Nat :=
  match p_property_id with
  | .gID_id =>
    match self.cached_value_getype_id_ with
    | none =>
      let v := EidosValuePtr.heap alloc (.Int_singleton self.genomic_element_type_id_)
      (.value v, { self with cached_value_getype_id_ := some v }, alloc + 1)
    | some v => (.value v, self, alloc)
  | .gID_mutationTypes =>
    let vec := self.mutation_type_ptrs_.foldl (fun (vec : List MutationTypePtr) mut_type => vec ++ [mut_type]) []
    (.value (.heap alloc (.Object_vector vec)), self, alloc + 1)
  | .gID_mutationFractions =>
    (.value (.heap alloc (.Float_vector self.mutation_fractions_)), self, alloc + 1)
  | .gID_tag =>
    (.value (.heap alloc (.Int_singleton self.tag_value_)), self, alloc + 1)
  | _ => (.baseClass, self, alloc)

/-- The method `GenomicElementType::SetProperty` (lines 212-229). -/
def SetProperty (G : SlimGlobal) (self : GenomicElementType) (p_property_id : EidosGlobalStringID)
    (p_value : EidosValue) : Outcome Unit × GenomicElementType :=
  match p_property_id with
  | .gID_tag =>
    match p_value.IntAtIndex 0 with
    | .error e => (.terminated e, self)
    | .ok v =>
      match SLiMCastToUsertagTypeOrRaise G v with
      | .error e => (.terminated e, self)
      | .ok value => (.value (), { self with tag_value_ := value })
  | _ => (.baseClass, self)

/-- Lines 260-279 of `ExecuteInstanceMethod`: the mutation type the element of
`arg0_value` at `mut_type_index` stands for. -/
def setMutationFractions_mutation_type_ptr (G : SlimGlobal) (p_interpreter : EidosInterpreter)
    (arg0_value : EidosValue) (mut_type_index : Nat) : Except Error MutationTypePtr :=
  if arg0_value.isInt then
    match arg0_value.IntAtIndex mut_type_index with
    | .error e => .error e
    | .ok v =>
      match SLiMCastToObjectidTypeOrRaise G v with
      | .error e => .error e
      | .ok mutation_type_id =>
        let mutation_type_ptr : Option MutationTypePtr :=
          match p_interpreter.GetEidosContext with
          | some sim => sim.MutationTypes.lookup mutation_type_id
          | none => none
        match mutation_type_ptr with
        | none => .error (.NotDefinedError mutation_type_id)
        | some p => .ok p
  else
    arg0_value.ObjectElementAtIndex mut_type_index

/-- The loop of lines 252-286: `remaining` iterations are left, starting at
`mut_type_index`; `mutation_types` and `mutation_fractions` are the two local vectors. -/
def setMutationFractions_loop (G : SlimGlobal) (p_interpreter : EidosInterpreter)
    (arg0_value arg1_value : EidosValue) :
    (remaining : Nat) → (mut_type_index : Nat) → (mutation_types : List MutationTypePtr) →
    (mutation_fractions : List Double) → Except Error (List MutationTypePtr × List Double)
  | 0, _, mutation_types, mutation_fractions => .ok (mutation_types, mutation_fractions)
  | remaining + 1, mut_type_index, mutation_types, mutation_fractions =>
    match arg1_value.FloatAtIndex mut_type_index with
    | .error e => .error e
    | .ok proportion =>
      if proportion.lt0 then .error (.NegativeWeightError proportion)
      else
        match setMutationFractions_mutation_type_ptr G p_interpreter arg0_value mut_type_index with
        | .error e => .error e
        | .ok mutation_type_ptr =>
          if mutation_type_ptr ∈ mutation_types then
            .error (.DuplicateCategoryError mutation_type_ptr)
          else
            setMutationFractions_loop G p_interpreter arg0_value arg1_value remaining
              (mut_type_index + 1) (mutation_types ++ [mutation_type_ptr])
              (mutation_fractions ++ [proportion])

/-- The method `GenomicElementType::ExecuteInstanceMethod` (lines 231-302), called with
the two arguments the signature of `setMutationFractions` requires. -/
def ExecuteInstanceMethod (G : SlimGlobal) (self : GenomicElementType)
    (p_method_id : EidosGlobalStringID) (arg0_value arg1_value : EidosValue)
    (p_interpreter : EidosInterpreter) : Outcome EidosValuePtr × GenomicElementType :=
  if p_method_id = .gID_setMutationFractions then
    let mut_type_id_count := arg0_value.Count
    let proportion_count := arg1_value.Count
    if mut_type_id_count ≠ proportion_count then
      (.terminated .LengthMismatchError, self)
    else
      match setMutationFractions_loop G p_interpreter arg0_value arg1_value mut_type_id_count 0 [] [] with
      | .error e => (.terminated e, self)
      | .ok (mutation_types, mutation_fractions) =>
        -- lines 289-290
        let self := { self with mutation_type_ptrs_ := mutation_types
                                mutation_fractions_ := mutation_fractions }
        -- line 293
        match InitializeDraws self with
        | (.value _, self) => (.value .gStaticEidosValueNULLInvisible, self)
        | (.terminated e, self) => (.terminated e, self)
        | (.baseClass, self) => (.baseClass, self)
  else
    (.baseClass, self)

end GenomicElementType

/-! ## Sequences of calls -/

/-- One call made on a descriptor by the scripting host or by the driver. -/
inductive Call where
  | GetProperty (p_property_id : EidosGlobalStringID)
  | SetProperty (p_property_id : EidosGlobalStringID) (p_value : EidosValue)
  | ExecuteInstanceMethod (p_method_id : EidosGlobalStringID) (arg0_value arg1_value : EidosValue)
      (p_interpreter : EidosInterpreter)
  | DrawMutationType (drawn : Nat)

/-- What a call returned. -/
inductive Returned where
  | eidosValue (v : EidosValuePtr)
  | void
  | mutationType (p : MutationTypePtr)
  deriving DecidableEq

/-- Maps the value inside an outcome. -/
def Outcome.map {α β : Type} (f : α → β) : Outcome α → Outcome β
  | .value v => .value (f v)
  | .terminated e => .terminated e
  | .baseClass => .baseClass

/-- A descriptor together with the allocation counter of the process. -/
structure World where
  self : GenomicElementType
  alloc : Nat
  deriving DecidableEq

/-- Makes one call; the descriptor and the counter are left as the call leaves them. -/
def World.call (G : SlimGlobal) (w : World) : Call → Outcome Returned × World
  | .GetProperty p_property_id =>
    let r := w.self.GetProperty w.alloc p_property_id
    (r.1.map .eidosValue, { self := r.2.1, alloc := r.2.2 })
  | .SetProperty p_property_id p_value =>
    let r := w.self.SetProperty G p_property_id p_value
    (r.1.map (fun _ => .void), { w with self := r.2 })
  | .ExecuteInstanceMethod p_method_id arg0_value arg1_value p_interpreter =>
    let r := w.self.ExecuteInstanceMethod G p_method_id arg0_value arg1_value p_interpreter
    (r.1.map .eidosValue, { w with self := r.2 })
  | .DrawMutationType drawn =>
    ((w.self.DrawMutationType drawn).map .mutationType, w)

/-- Makes the calls one after the other and returns the final state. -/
def World.run (G : SlimGlobal) (w : World) : List Call → World
  | [] => w
  | c :: cs => World.run G (w.call G c).2 cs

/-- Makes the calls one after the other and returns what each one returned. -/
def World.outcomes (G : SlimGlobal) (w : World) : List Call → List (Outcome Returned)
  | [] => []
  | c :: cs => (w.call G c).1 :: World.outcomes G (w.call G c).2 cs

/-! ## Auxiliary definitions used by the statements and proofs -/

namespace GenomicElementType

/-- The state `InitializeDraws` leaves when it returns normally: the table is present
exactly when some fraction is `> 0.0`, and is then built from all the fractions. -/
def withDraws (self : GenomicElementType) : GenomicElementType :=
  { self with
    lookup_mutation_type_ :=
      if self.mutation_fractions_.any Double.gt0 then
        some { K := self.mutation_type_ptrs_.length, P := self.mutation_fractions_ }
      else none }

/-- The loop of `setMutationFractions` run over the list of what the two accessors
return at each index, instead of over the indices. -/
def setMutationFractions_cells :
    List (Except Error Double × Except Error MutationTypePtr) → List MutationTypePtr →
    List Double → Except Error (List MutationTypePtr × List Double)
  | [], mutation_types, mutation_fractions => .ok (mutation_types, mutation_fractions)
  | (f, r) :: rest, mutation_types, mutation_fractions =>
    match f with
    | .error e => .error e
    | .ok proportion =>
      if proportion.lt0 then .error (.NegativeWeightError proportion)
      else
        match r with
        | .error e => .error e
        | .ok mutation_type_ptr =>
          if mutation_type_ptr ∈ mutation_types then
            .error (.DuplicateCategoryError mutation_type_ptr)
          else
            setMutationFractions_cells rest (mutation_types ++ [mutation_type_ptr])
              (mutation_fractions ++ [proportion])

/-- The mutation types `setMutationFractions` reads from `arg0_value`, index by index:
the object elements themselves, or what the integer identifiers stand for. -/
def setMutationFractions_mutation_types (G : SlimGlobal) (p_interpreter : EidosInterpreter)
    (arg0_value : EidosValue) : List (Except Error MutationTypePtr) :=
  (List.range arg0_value.Count).map (setMutationFractions_mutation_type_ptr G p_interpreter arg0_value)

end GenomicElementType

/-- The value holds a NaN element. -/
def EidosValue.hasNaN : EidosValue → Bool
  | .Float_vector vs => vs.any Double.isNaN
  | _ => false

/-- The call is `setMutationFractions` with a NaN among the proportions. -/
def Call.suppliesNaN : Call → Bool
  | .ExecuteInstanceMethod p_method_id _ arg1_value _ =>
    decide (p_method_id = .gID_setMutationFractions) && arg1_value.hasNaN
  | _ => false

/-- The call is a write of the property `tag`. -/
def Call.isTagWrite : Call → Bool
  | .SetProperty .gID_tag _ => true
  | _ => false

/-! # Properties -/

/-! ## Comparisons of doubles -/

theorem Double.lt0_eq_false_of_ge0 {d : Double} (h : d.ge0 = true) : d.lt0 = false := by
  cases d with
  | nan => rfl
  | finite q =>
    simp only [Double.ge0, decide_eq_true_eq] at h
    simp only [Double.lt0, decide_eq_false_iff_not, not_lt]
    exact h
  | inf negative => cases negative <;> simp_all [Double.ge0, Double.lt0]

theorem Double.ge0_of_lt0_eq_false {d : Double} (hn : d.isNaN = false) (h : d.lt0 = false) :
    d.ge0 = true := by
  cases d with
  | nan => simp [Double.isNaN] at hn
  | finite q =>
    simp only [Double.lt0, decide_eq_false_iff_not, not_lt] at h
    simp only [Double.ge0, decide_eq_true_eq]
    exact h
  | inf negative => cases negative <;> simp_all [Double.ge0, Double.lt0]

theorem Double.isNaN_eq_false_of_ge0 {d : Double} (h : d.ge0 = true) : d.isNaN = false := by
  cases d <;> simp_all [Double.ge0, Double.isNaN]

theorem Double.ge0_of_gt0 {d : Double} (h : d.gt0 = true) : d.ge0 = true := by
  cases d with
  | nan => simp [Double.gt0] at h
  | finite q =>
    simp only [Double.gt0, decide_eq_true_eq] at h
    simp only [Double.ge0, decide_eq_true_eq]
    exact le_of_lt h
  | inf negative => cases negative <;> simp_all [Double.ge0, Double.gt0]

theorem Double.eq0_of_ge0_of_not_gt0 {d : Double} (h : d.ge0 = true) (h2 : d.gt0 = false) :
    d.eq0 = true := by
  cases d with
  | nan => simp [Double.ge0] at h
  | finite q =>
    simp only [Double.ge0, decide_eq_true_eq] at h
    simp only [Double.gt0, decide_eq_false_iff_not, not_lt] at h2
    simp only [Double.eq0, decide_eq_true_eq]
    exact le_antisymm h2 h
  | inf negative => cases negative <;> simp_all [Double.ge0, Double.gt0]

theorem Double.gt0_eq_false_of_eq0 {d : Double} (h : d.eq0 = true) : d.gt0 = false := by
  cases d with
  | nan => rfl
  | finite q =>
    simp only [Double.eq0, decide_eq_true_eq] at h
    simp [Double.gt0, h]
  | inf negative => simp [Double.eq0] at h

/-! ## `InitializeDraws` -/

namespace GenomicElementType

theorem InitializeDraws_foldl (l : List Double) (A : List Double) (seen : Bool) :
    l.foldl (fun (acc : List Double × Bool) fraction => (acc.1 ++ [fraction], acc.2 || fraction.gt0))
      (A, seen) = (A ++ l, seen || l.any Double.gt0) := by
  induction l generalizing A seen with
  | nil => simp
  | cons x xs ih => simp [List.foldl_cons, ih, Bool.or_assoc]

theorem InitializeDraws_of_valid (self : GenomicElementType)
    (hlen : self.mutation_type_ptrs_.length = self.mutation_fractions_.length)
    (hneg : self.mutation_fractions_.any Double.lt0 = false) :
    self.InitializeDraws = (.value (), self.withDraws) := by
  unfold InitializeDraws withDraws
  simp only [hlen, ne_eq, not_true_eq_false, if_false, InitializeDraws_foldl, List.nil_append,
    Bool.false_or]
  by_cases h0 : self.mutation_fractions_.length = 0
  · have hnil : self.mutation_fractions_ = [] := List.length_eq_zero.mp h0
    simp [hnil]
  · by_cases hs : self.mutation_fractions_.any Double.gt0 = true
    · have hK : ¬ self.mutation_fractions_.length < 1 := by omega
      simp [h0, hs, gsl_ran_discrete_preproc, hneg, hK]
    · simp [h0, hs]

theorem InitializeDraws_of_sizes (self : GenomicElementType)
    (hlen : self.mutation_type_ptrs_.length ≠ self.mutation_fractions_.length) :
    self.InitializeDraws = (.terminated .InitializeDraws_sizes, self) := by
  unfold InitializeDraws
  simp [hlen]

/-! ## The loop of `setMutationFractions` -/

theorem setMutationFractions_loop_inv (G : SlimGlobal) (I : EidosInterpreter) (a0 a1 : EidosValue)
    (n i : Nat) (mts : List MutationTypePtr) (mfs : List Double)
    (x : List MutationTypePtr) (y : List Double)
    (h : setMutationFractions_loop G I a0 a1 n i mts mfs = .ok (x, y)) :
    x.length = mts.length + n ∧ y.length = mfs.length + n ∧
      (mfs.any Double.lt0 = false → y.any Double.lt0 = false) ∧ (mts.Nodup → x.Nodup) := by
  induction n generalizing i mts mfs with
  | zero =>
    simp only [setMutationFractions_loop, Except.ok.injEq, Prod.mk.injEq] at h
    obtain ⟨rfl, rfl⟩ := h
    simp
  | succ n ih =>
    unfold setMutationFractions_loop at h
    split at h
    · cases h
    · rename_i proportion hf
      split at h
      · cases h
      · rename_i hlt
        split at h
        · cases h
        · rename_i p hp
          split at h
          · cases h
          · rename_i hmem
            obtain ⟨h1, h2, h3, h4⟩ := ih (i + 1) (mts ++ [p]) (mfs ++ [proportion]) h
            refine ⟨?_, ?_, ?_, ?_⟩
            · simp at h1; omega
            · simp at h2; omega
            · intro hm
              apply h3
              simp only [Bool.not_eq_true] at hlt
              simp [List.any_append, hm, hlt]
            · intro hm
              apply h4
              rw [List.nodup_append]
              refine ⟨hm, List.nodup_singleton p, ?_⟩
              intro a ha hb
              simp only [List.mem_singleton] at hb
              subst hb
              exact hmem ha

/-- Every call of `ExecuteInstanceMethod` either leaves the object as it was and does
not return normally, or returns the invisible NULL and leaves an object that has
new, checked vectors and the table `InitializeDraws` builds from them. -/
theorem ExecuteInstanceMethod_cases (G : SlimGlobal) (self : GenomicElementType)
    (m : EidosGlobalStringID) (a0 a1 : EidosValue) (I : EidosInterpreter) :
    ((self.ExecuteInstanceMethod G m a0 a1 I).2 = self ∧
      ∀ v, (self.ExecuteInstanceMethod G m a0 a1 I).1 ≠ .value v) ∨
    (∃ x y, m = .gID_setMutationFractions ∧ a0.Count = a1.Count ∧
      setMutationFractions_loop G I a0 a1 a0.Count 0 [] [] = .ok (x, y) ∧
      x.length = y.length ∧ y.any Double.lt0 = false ∧ x.Nodup ∧
      self.ExecuteInstanceMethod G m a0 a1 I =
        (.value .gStaticEidosValueNULLInvisible,
          withDraws { self with mutation_type_ptrs_ := x, mutation_fractions_ := y })) := by
  unfold ExecuteInstanceMethod
  by_cases hm : m = .gID_setMutationFractions
  · by_cases hc : a0.Count = a1.Count
    · simp only [hm, if_true, hc, ne_eq, not_true_eq_false, if_false]
      cases hl : setMutationFractions_loop G I a0 a1 a1.Count 0 [] [] with
      | error e => left; simp
      | ok r =>
        obtain ⟨x, y⟩ := r
        right
        have hl2 := hl
        rw [← hc] at hl2
        obtain ⟨h1, h2, h3, h4⟩ := setMutationFractions_loop_inv G I a0 a1 _ 0 [] [] x y hl
        have hxy : x.length = y.length := by simp at h1 h2; omega
        have hneg : y.any Double.lt0 = false := h3 (by simp)
        have hnd : x.Nodup := h4 List.nodup_nil
        refine ⟨x, y, trivial, trivial, rfl, hxy, hneg, hnd, ?_⟩
        simp only []
        rw [InitializeDraws_of_valid _ hxy hneg]
    · left; simp [hm, hc]
  · left; simp [hm]

theorem setMutationFractions_loop_eq_cells (G : SlimGlobal) (I : EidosInterpreter)
    (a0 a1 : EidosValue) (n i : Nat) (mts : List MutationTypePtr) (mfs : List Double) :
    setMutationFractions_loop G I a0 a1 n i mts mfs =
      setMutationFractions_cells
        ((List.range' i n).map fun j =>
          (a1.FloatAtIndex j, setMutationFractions_mutation_type_ptr G I a0 j)) mts mfs := by
  induction n generalizing i mts mfs with
  | zero => simp [setMutationFractions_loop, setMutationFractions_cells]
  | succ n ih =>
    simp only [List.range'_succ, List.map_cons]
    unfold setMutationFractions_loop setMutationFractions_cells
    cases a1.FloatAtIndex i with
    | error e => rfl
    | ok proportion =>
      simp only []
      split
      · rfl
      · cases setMutationFractions_mutation_type_ptr G I a0 i with
        | error e => rfl
        | ok p =>
          simp only []
          split
          · rfl
          · exact ih (i + 1) _ _

theorem FloatAtIndex_Float_vector_range (ws : List Double) :
    (List.range ws.length).map (EidosValue.FloatAtIndex (.Float_vector ws)) = ws.map Except.ok := by
  apply List.ext_getElem
  · simp
  · intro j h1 h2
    simp only [List.length_map, List.length_range] at h1
    simp [EidosValue.FloatAtIndex, List.getElem?_eq_getElem h1]

theorem setMutationFractions_mutation_types_Object_vector (G : SlimGlobal) (I : EidosInterpreter)
    (ps : List MutationTypePtr) :
    setMutationFractions_mutation_types G I (.Object_vector ps) = ps.map Except.ok := by
  unfold setMutationFractions_mutation_types
  apply List.ext_getElem
  · simp [EidosValue.Count]
  · intro j h1 h2
    simp only [List.length_map, List.length_range, EidosValue.Count] at h1
    simp [setMutationFractions_mutation_type_ptr, EidosValue.isInt, EidosValue.ObjectElementAtIndex,
      List.getElem?_eq_getElem h1]

/-- With float proportions `ws` and an `arg0_value` whose elements all stand for mutation
types `ps`, the loop is the list loop over the pairs of `ws` and `ps`. -/
theorem setMutationFractions_loop_typed (G : SlimGlobal) (I : EidosInterpreter)
    (a0 : EidosValue) (ws : List Double) (ps : List MutationTypePtr)
    (hres : setMutationFractions_mutation_types G I a0 = ps.map Except.ok)
    (hlen : a0.Count = ws.length) :
    setMutationFractions_loop G I a0 (.Float_vector ws) a0.Count 0 [] [] =
      setMutationFractions_cells (List.zip (ws.map Except.ok) (ps.map Except.ok)) [] [] := by
  rw [setMutationFractions_loop_eq_cells, ← List.range_eq_range', ← List.zip_map']
  congr 1
  unfold setMutationFractions_mutation_types at hres
  rw [hres, hlen, FloatAtIndex_Float_vector_range]

theorem setMutationFractions_cells_ok (ws : List Double) (ps mts : List MutationTypePtr)
    (mfs : List Double) (hlen : ps.length = ws.length) (hneg : ∀ w ∈ ws, w.lt0 = false)
    (hnd : (mts ++ ps).Nodup) :
    setMutationFractions_cells (List.zip (ws.map Except.ok) (ps.map Except.ok)) mts mfs =
      .ok (mts ++ ps, mfs ++ ws) := by
  induction ws generalizing ps mts mfs with
  | nil =>
    have : ps = [] := List.length_eq_zero.mp (by simpa using hlen)
    subst this
    simp [setMutationFractions_cells]
  | cons w ws ih =>
    cases ps with
    | nil => simp at hlen
    | cons p ps =>
      have hw : w.lt0 = false := hneg w (by simp)
      have hp : p ∉ mts := by
        intro hmem
        rw [List.nodup_append] at hnd
        exact hnd.2.2 hmem (by simp)
      simp only [List.map_cons, List.zip_cons_cons, setMutationFractions_cells, hw, hp,
        Bool.false_eq_true, if_false]
      have key := ih ps (mts ++ [p]) (mfs ++ [w]) (by simpa using hlen)
        (fun x hx => hneg x (by simp [hx])) (by simpa using hnd)
      simpa [List.zip] using key

theorem setMutationFractions_cells_ok_inv (ws : List Double) (ps mts : List MutationTypePtr)
    (mfs : List Double) (hlen : ps.length = ws.length) (r : List MutationTypePtr × List Double)
    (h : setMutationFractions_cells (List.zip (ws.map Except.ok) (ps.map Except.ok)) mts mfs = .ok r) :
    (∀ w ∈ ws, w.lt0 = false) ∧ ps.Nodup ∧ ∀ p ∈ ps, p ∉ mts := by
  induction ws generalizing ps mts mfs with
  | nil =>
    have : ps = [] := List.length_eq_zero.mp (by simpa using hlen)
    subst this
    simp
  | cons w ws ih =>
    cases ps with
    | nil => simp at hlen
    | cons p ps =>
      simp only [List.map_cons, List.zip_cons_cons, setMutationFractions_cells] at h
      split at h
      · cases h
      · rename_i hw
        split at h
        · cases h
        · rename_i hp
          obtain ⟨h1, h2, h3⟩ := ih ps (mts ++ [p]) (mfs ++ [w]) (by simpa using hlen)
            (by simpa [List.zip] using h)
          simp only [Bool.not_eq_true] at hw
          refine ⟨?_, ?_, ?_⟩
          · intro x hx
            rcases List.mem_cons.mp hx with rfl | hx
            · exact hw
            · exact h1 x hx
          · rw [List.nodup_cons]
            refine ⟨?_, h2⟩
            intro hmem
            exact h3 p hmem (by simp)
          · intro q hq
            rcases List.mem_cons.mp hq with rfl | hq
            · exact hp
            · intro hmem
              exact h3 q hq (by simp [hmem])

theorem setMutationFractions_mutation_types_length (G : SlimGlobal) (I : EidosInterpreter)
    (a0 : EidosValue) (ps : List MutationTypePtr)
    (hres : setMutationFractions_mutation_types G I a0 = ps.map Except.ok) :
    a0.Count = ps.length := by
  have h := congrArg List.length hres
  simpa [setMutationFractions_mutation_types] using h

/-- With float proportions and an `arg0_value` whose elements all stand for mutation types,
`setMutationFractions` returns exactly when the lengths agree, no proportion is `< 0`
and no mutation type is repeated. -/
theorem setMutationFractions_ok_iff (G : SlimGlobal) (self : GenomicElementType)
    (a0 : EidosValue) (ws : List Double) (ps : List MutationTypePtr) (I : EidosInterpreter)
    (hres : setMutationFractions_mutation_types G I a0 = ps.map Except.ok) :
    (self.ExecuteInstanceMethod G .gID_setMutationFractions a0 (.Float_vector ws) I =
        (.value .gStaticEidosValueNULLInvisible,
          withDraws { self with mutation_type_ptrs_ := ps, mutation_fractions_ := ws })) ↔
      (ps.length = ws.length ∧ (∀ w ∈ ws, w.lt0 = false) ∧ ps.Nodup) := by
  have hcount := setMutationFractions_mutation_types_length G I a0 ps hres
  constructor
  · intro h
    rcases ExecuteInstanceMethod_cases G self .gID_setMutationFractions a0 (.Float_vector ws) I with
      ⟨_, hne⟩ | ⟨x, y, _, hc, hl, _, _, _, _⟩
    · exact absurd (congrArg Prod.fst h) (hne _)
    · have hlen : ps.length = ws.length := by
        rw [← hcount, hc]; rfl
      rw [setMutationFractions_loop_typed G I a0 ws ps hres (by rw [hcount, hlen])] at hl
      obtain ⟨h1, h2, _⟩ := setMutationFractions_cells_ok_inv ws ps [] [] hlen _ hl
      exact ⟨hlen, h1, h2⟩
  · rintro ⟨hlen, hneg, hnd⟩
    have hc : a0.Count = (EidosValue.Float_vector ws).Count := by
      rw [hcount, hlen]; rfl
    have hl := setMutationFractions_loop_typed G I a0 ws ps hres (by rw [hcount, hlen])
    rw [setMutationFractions_cells_ok ws ps [] [] hlen hneg (by simpa using hnd)] at hl
    simp only [List.nil_append] at hl
    have hany : ws.any Double.lt0 = false := by
      rw [List.any_eq_false]
      intro w hw
      simp [hneg w hw]
    unfold ExecuteInstanceMethod
    simp only [if_true, hc, ne_eq, not_true_eq_false, if_false]
    rw [← hc, hl]
    simp only []
    rw [InitializeDraws_of_valid _ hlen hany]

theorem GetProperty_mutationTypes_foldl (l vec : List MutationTypePtr) :
    l.foldl (fun (vec : List MutationTypePtr) mut_type => vec ++ [mut_type]) vec = vec ++ l := by
  induction l generalizing vec with
  | nil => simp
  | cons x xs ih => simp [ih]

end GenomicElementType

open GenomicElementType
/-- C1 — on failure `setMutationFractions` is atomic: whenever the call ends in a fatal
error, of whatever kind and for whatever arguments, the descriptor it leaves is equal to
the descriptor before the call in every member (mutation types, fractions, lookup table,
tag, id, cached id value). -/
theorem C1_setMutationFractions_failure_atomic (G : SlimGlobal) (self : GenomicElementType)
    (arg0_value arg1_value : EidosValue) (p_interpreter : EidosInterpreter) (e : Error)
    (h : (self.ExecuteInstanceMethod G .gID_setMutationFractions arg0_value arg1_value
      p_interpreter).1 = .terminated e) :
    (self.ExecuteInstanceMethod G .gID_setMutationFractions arg0_value arg1_value
      p_interpreter).2 = self := by
  rcases ExecuteInstanceMethod_cases G self .gID_setMutationFractions arg0_value arg1_value
    p_interpreter with ⟨hs, _⟩ | ⟨x, y, _, _, _, _, _, _, heq⟩
  · exact hs
  · rw [heq] at h
    cases h

/-- C1, witness: `categories=[A,A]`, `weights=[1,1]` on a descriptor holding `[B]`, `[2]`. -/
theorem C1_setMutationFractions_failure_atomic_witness :
    ((GenomicElementType.mk (some ⟨1, [.finite 2]⟩) none 7 [⟨2⟩] [.finite 2] 42).ExecuteInstanceMethod
        ⟨fun _ => true, fun _ => true⟩ .gID_setMutationFractions
        (.Object_vector [⟨1⟩, ⟨1⟩]) (.Float_vector [.finite 1, .finite 1]) ⟨none⟩).1 =
      .terminated (.DuplicateCategoryError ⟨1⟩) ∧
    ((GenomicElementType.mk (some ⟨1, [.finite 2]⟩) none 7 [⟨2⟩] [.finite 2] 42).ExecuteInstanceMethod
        ⟨fun _ => true, fun _ => true⟩ .gID_setMutationFractions
        (.Object_vector [⟨1⟩, ⟨1⟩]) (.Float_vector [.finite 1, .finite 1]) ⟨none⟩).2 =
      GenomicElementType.mk (some ⟨1, [.finite 2]⟩) none 7 [⟨2⟩] [.finite 2] 42 :=
  ⟨by decide, C1_setMutationFractions_failure_atomic _ _ _ _ _ (.DuplicateCategoryError ⟨1⟩) (by decide)⟩

namespace GenomicElementType

theorem setMutationFractions_cells_negative (pre : List Double) (w : Double) (post : List Double)
    (ps mts : List MutationTypePtr) (mfs : List Double)
    (hlen : ps.length = (pre ++ w :: post).length) (hpre : ∀ x ∈ pre, x.lt0 = false)
    (hw : w.lt0 = true) (hnd : (mts ++ ps.take pre.length).Nodup) :
    setMutationFractions_cells (List.zip ((pre ++ w :: post).map Except.ok) (ps.map Except.ok))
      mts mfs = .error (.NegativeWeightError w) := by
  induction pre generalizing ps mts mfs with
  | nil =>
    cases ps with
    | nil => simp at hlen
    | cons p ps => simp [setMutationFractions_cells, hw]
  | cons x pre ih =>
    cases ps with
    | nil => simp at hlen
    | cons p ps =>
      have hx : x.lt0 = false := hpre x (by simp)
      have hp : p ∉ mts := by
        intro hmem
        simp only [List.length_cons, List.take_succ_cons] at hnd
        rw [List.nodup_append] at hnd
        exact hnd.2.2 hmem (by simp)
      have key := ih ps (mts ++ [p]) (mfs ++ [x]) (by simpa using hlen)
        (fun y hy => hpre y (by simp [hy])) (by simpa using hnd)
      simp only [List.cons_append, List.map_cons, List.zip_cons_cons, setMutationFractions_cells,
        hx, hp, Bool.false_eq_true, if_false]
      simpa [List.zip] using key

theorem setMutationFractions_cells_duplicate (pre : List Double) (w : Double) (post : List Double)
    (ps mts : List MutationTypePtr) (mfs : List Double)
    (hlen : ps.length = (pre ++ w :: post).length) (hpre : ∀ x ∈ pre, x.lt0 = false)
    (hmts : mts.Nodup) (hnd : ¬ (mts ++ ps.take pre.length).Nodup) :
    ∃ q, 2 ≤ List.count q (mts ++ ps.take pre.length) ∧
      setMutationFractions_cells (List.zip ((pre ++ w :: post).map Except.ok) (ps.map Except.ok))
        mts mfs = .error (.DuplicateCategoryError q) := by
  induction pre generalizing ps mts mfs with
  | nil => simp [hmts] at hnd
  | cons x pre ih =>
    cases ps with
    | nil => simp at hlen
    | cons p ps =>
      have hx : x.lt0 = false := hpre x (by simp)
      by_cases hp : p ∈ mts
      · refine ⟨p, ?_, ?_⟩
        · have h1 : 0 < List.count p mts := List.count_pos_iff.mpr hp
          simp only [List.length_cons, List.take_succ_cons, List.count_append,
            List.count_cons_self]
          omega
        · simp [setMutationFractions_cells, hx, hp]
      · have hmts2 : (mts ++ [p]).Nodup := by
          rw [List.nodup_append]
          refine ⟨hmts, List.nodup_singleton p, ?_⟩
          intro a ha hb
          simp only [List.mem_singleton] at hb
          subst hb
          exact hp ha
        obtain ⟨q, hq, key⟩ := ih ps (mts ++ [p]) (mfs ++ [x]) (by simpa using hlen)
          (fun y hy => hpre y (by simp [hy])) hmts2 (by simpa using hnd)
        refine ⟨q, by simpa using hq, ?_⟩
        simp only [List.cons_append, List.map_cons, List.zip_cons_cons,
          setMutationFractions_cells, hx, hp, Bool.false_eq_true, if_false]
        simpa [List.zip] using key

end GenomicElementType

/-- C2, counterexample: with `categories=[A,A,B]`, `weights=[1,1,-1]` (equal lengths, a
negative weight and a duplicated category) the error raised is the duplicate error for
`A`, not a negative weight error. -/
theorem C2_counterexample :
    ((GenomicElementType.mk none none 7 [] [] 0).ExecuteInstanceMethod
        ⟨fun _ => true, fun _ => true⟩ .gID_setMutationFractions
        (.Object_vector [⟨1⟩, ⟨1⟩, ⟨2⟩]) (.Float_vector [.finite 1, .finite 1, .finite (-1)])
        ⟨none⟩).1 = .terminated (.DuplicateCategoryError ⟨1⟩) ∧
    (∀ proportion, ((GenomicElementType.mk none none 7 [] [] 0).ExecuteInstanceMethod
        ⟨fun _ => true, fun _ => true⟩ .gID_setMutationFractions
        (.Object_vector [⟨1⟩, ⟨1⟩, ⟨2⟩]) (.Float_vector [.finite 1, .finite 1, .finite (-1)])
        ⟨none⟩).1 ≠ .terminated (.NegativeWeightError proportion)) ∧
    (Double.finite (-1)).lt0 = true ∧
    (EidosValue.Object_vector [⟨1⟩, ⟨1⟩, ⟨2⟩]).Count =
      (EidosValue.Float_vector [.finite 1, .finite 1, .finite (-1)]).Count := by
  have h : ((GenomicElementType.mk none none 7 [] [] 0).ExecuteInstanceMethod
        ⟨fun _ => true, fun _ => true⟩ .gID_setMutationFractions
        (.Object_vector [⟨1⟩, ⟨1⟩, ⟨2⟩]) (.Float_vector [.finite 1, .finite 1, .finite (-1)])
        ⟨none⟩).1 = .terminated (.DuplicateCategoryError ⟨1⟩) := by decide
  refine ⟨h, ?_, by decide, by decide⟩
  intro proportion hp
  rw [h] at hp
  cases hp

/-- C2, amended — whenever the lengths differ the error is the length mismatch error,
whatever the contents. With equal lengths, float weights of which the first negative one
is `w` (after the weights `pre`), and categories that all stand for mutation types `ps`:
the error is the negative weight error for `w` when no category is repeated among the
categories in front of `w`, and otherwise it is the duplicate error for a category that
occurs twice among them. -/
theorem C2_setMutationFractions_first_failure (G : SlimGlobal) (self : GenomicElementType)
    (arg0_value arg1_value : EidosValue) (p_interpreter : EidosInterpreter) :
    (arg0_value.Count ≠ arg1_value.Count →
      (self.ExecuteInstanceMethod G .gID_setMutationFractions arg0_value arg1_value
        p_interpreter).1 = .terminated .LengthMismatchError) ∧
    (∀ (pre : List Double) (w : Double) (post : List Double) (ps : List MutationTypePtr),
      arg1_value = .Float_vector (pre ++ w :: post) →
      setMutationFractions_mutation_types G p_interpreter arg0_value = ps.map Except.ok →
      arg0_value.Count = arg1_value.Count →
      (∀ x ∈ pre, x.lt0 = false) → w.lt0 = true →
      ((ps.take pre.length).Nodup →
        (self.ExecuteInstanceMethod G .gID_setMutationFractions arg0_value arg1_value
          p_interpreter).1 = .terminated (.NegativeWeightError w)) ∧
      (¬ (ps.take pre.length).Nodup →
        ∃ q, 2 ≤ List.count q (ps.take pre.length) ∧
          (self.ExecuteInstanceMethod G .gID_setMutationFractions arg0_value arg1_value
            p_interpreter).1 = .terminated (.DuplicateCategoryError q))) := by
  refine ⟨?_, ?_⟩
  · intro hc
    unfold ExecuteInstanceMethod
    simp [hc]
  · intro pre w post ps ha1 hres hc hpre hw
    subst ha1
    have hcount := setMutationFractions_mutation_types_length G p_interpreter arg0_value ps hres
    have hlen : ps.length = (pre ++ w :: post).length := by
      rw [← hcount, hc]; rfl
    have hl := setMutationFractions_loop_typed G p_interpreter arg0_value (pre ++ w :: post) ps
      hres (by rw [hcount, hlen])
    have hex : ∀ e, setMutationFractions_cells
        (List.zip ((pre ++ w :: post).map Except.ok) (ps.map Except.ok)) [] [] = .error e →
        (self.ExecuteInstanceMethod G .gID_setMutationFractions arg0_value
          (.Float_vector (pre ++ w :: post)) p_interpreter).1 = .terminated e := by
      intro e he
      unfold ExecuteInstanceMethod
      simp only [if_true, hc, ne_eq, not_true_eq_false, if_false]
      rw [← hc, hl, he]
    refine ⟨?_, ?_⟩
    · intro hnd
      exact hex _ (setMutationFractions_cells_negative pre w post ps [] [] hlen hpre hw
        (by simpa using hnd))
    · intro hnd
      obtain ⟨q, hq, key⟩ := setMutationFractions_cells_duplicate pre w post ps [] [] hlen hpre
        List.nodup_nil (by simpa using hnd)
      exact ⟨q, by simpa using hq, hex _ key⟩

/-- C2, witness: a length mismatch with a negative weight and a duplicate inside;
`[A,B,A]`, `[1,-1,1]` gives the negative weight error; `[A,A,B]`, `[1,1,-1]` the
duplicate error. -/
theorem C2_setMutationFractions_first_failure_witness :
    ((GenomicElementType.mk none none 7 [] [] 0).ExecuteInstanceMethod
        ⟨fun _ => true, fun _ => true⟩ .gID_setMutationFractions
        (.Object_vector [⟨1⟩, ⟨1⟩]) (.Float_vector [.finite (-1)]) ⟨none⟩).1 =
      .terminated .LengthMismatchError ∧
    ((GenomicElementType.mk none none 7 [] [] 0).ExecuteInstanceMethod
        ⟨fun _ => true, fun _ => true⟩ .gID_setMutationFractions
        (.Object_vector [⟨1⟩, ⟨2⟩, ⟨1⟩]) (.Float_vector [.finite 1, .finite (-1), .finite 1])
        ⟨none⟩).1 = .terminated (.NegativeWeightError (.finite (-1))) ∧
    (∃ q, 2 ≤ List.count q (List.take 2 [(⟨1⟩ : MutationTypePtr), ⟨1⟩, ⟨2⟩]) ∧
      ((GenomicElementType.mk none none 7 [] [] 0).ExecuteInstanceMethod
        ⟨fun _ => true, fun _ => true⟩ .gID_setMutationFractions
        (.Object_vector [⟨1⟩, ⟨1⟩, ⟨2⟩]) (.Float_vector [.finite 1, .finite 1, .finite (-1)])
        ⟨none⟩).1 = .terminated (.DuplicateCategoryError q)) :=
  ⟨(C2_setMutationFractions_first_failure _ _ _ _ _).1 (by decide),
   ((C2_setMutationFractions_first_failure ⟨fun _ => true, fun _ => true⟩ _
      (.Object_vector [⟨1⟩, ⟨2⟩, ⟨1⟩]) _ ⟨none⟩).2 [.finite 1] (.finite (-1)) [.finite 1]
      [⟨1⟩, ⟨2⟩, ⟨1⟩] rfl (setMutationFractions_mutation_types_Object_vector _ _ _) (by decide)
      (by decide) (by decide)).1 (by decide),
   ((C2_setMutationFractions_first_failure ⟨fun _ => true, fun _ => true⟩ _
      (.Object_vector [⟨1⟩, ⟨1⟩, ⟨2⟩]) _ ⟨none⟩).2 [.finite 1, .finite 1] (.finite (-1)) []
      [⟨1⟩, ⟨1⟩, ⟨2⟩] rfl (setMutationFractions_mutation_types_Object_vector _ _ _) (by decide)
      (by decide) (by decide)).2 (by decide)⟩

/-- C3, the code at the failing input: `categories=[A]`, `weights=[NAN]` is accepted and
stored, although the weight is not `>= 0`. -/
theorem C3_setMutationFractions_accepts_nan :
    (GenomicElementType.mk none none 7 [] [] 0).ExecuteInstanceMethod
        ⟨fun _ => true, fun _ => true⟩ .gID_setMutationFractions
        (.Object_vector [⟨1⟩]) (.Float_vector [.nan]) ⟨none⟩ =
      (.value .gStaticEidosValueNULLInvisible,
        GenomicElementType.mk none none 7 [⟨1⟩] [.nan] 0) ∧
    Double.nan.ge0 = false := by
  decide

/-- C4 — on success `setMutationFractions` fully replaces the configuration: for every
descriptor and every valid pair (the categories of `arg0_value` stand for the mutation
types `ps`, none twice; the weights `ws` are as many and all `>= 0`), the call returns
the invisible NULL, and afterwards the property `mutationTypes` reads exactly `ps` and the
property `mutationFractions` exactly `ws`, in the supplied order. -/
theorem C4_setMutationFractions_replaces (G : SlimGlobal) (self : GenomicElementType)
    (arg0_value : EidosValue) (ws : List Double) (ps : List MutationTypePtr)
    (p_interpreter : EidosInterpreter) (alloc : Nat)
    (hres : setMutationFractions_mutation_types G p_interpreter arg0_value = ps.map Except.ok)
    (hlen : ps.length = ws.length) (hge : ∀ w ∈ ws, w.ge0 = true) (hnd : ps.Nodup) :
    (self.ExecuteInstanceMethod G .gID_setMutationFractions arg0_value (.Float_vector ws)
        p_interpreter).1 = .value .gStaticEidosValueNULLInvisible ∧
    ((self.ExecuteInstanceMethod G .gID_setMutationFractions arg0_value (.Float_vector ws)
        p_interpreter).2.GetProperty alloc .gID_mutationTypes).1 =
      .value (.heap alloc (.Object_vector ps)) ∧
    ((self.ExecuteInstanceMethod G .gID_setMutationFractions arg0_value (.Float_vector ws)
        p_interpreter).2.GetProperty alloc .gID_mutationFractions).1 =
      .value (.heap alloc (.Float_vector ws)) ∧
    (self.ExecuteInstanceMethod G .gID_setMutationFractions arg0_value (.Float_vector ws)
        p_interpreter).2.mutation_type_ptrs_ = ps ∧
    (self.ExecuteInstanceMethod G .gID_setMutationFractions arg0_value (.Float_vector ws)
        p_interpreter).2.mutation_fractions_ = ws := by
  have h := (setMutationFractions_ok_iff G self arg0_value ws ps p_interpreter hres).mpr
    ⟨hlen, fun w hw => Double.lt0_eq_false_of_ge0 (hge w hw), hnd⟩
  rw [h]
  simp [GetProperty, withDraws, GetProperty_mutationTypes_foldl]

/-- C4, witness: `[A,B]`, `[1,0]` replaces `[C]`, `[2]`. -/
theorem C4_setMutationFractions_replaces_witness :
    ((GenomicElementType.mk (some ⟨1, [.finite 2]⟩) none 7 [⟨3⟩] [.finite 2] 42).ExecuteInstanceMethod
        ⟨fun _ => true, fun _ => true⟩ .gID_setMutationFractions
        (.Object_vector [⟨1⟩, ⟨2⟩]) (.Float_vector [.finite 1, .finite 0]) ⟨none⟩).1 =
      .value .gStaticEidosValueNULLInvisible ∧
    (((GenomicElementType.mk (some ⟨1, [.finite 2]⟩) none 7 [⟨3⟩] [.finite 2] 42).ExecuteInstanceMethod
        ⟨fun _ => true, fun _ => true⟩ .gID_setMutationFractions
        (.Object_vector [⟨1⟩, ⟨2⟩]) (.Float_vector [.finite 1, .finite 0])
        ⟨none⟩).2.GetProperty 5 .gID_mutationTypes).1 =
      .value (.heap 5 (.Object_vector [⟨1⟩, ⟨2⟩])) ∧
    (((GenomicElementType.mk (some ⟨1, [.finite 2]⟩) none 7 [⟨3⟩] [.finite 2] 42).ExecuteInstanceMethod
        ⟨fun _ => true, fun _ => true⟩ .gID_setMutationFractions
        (.Object_vector [⟨1⟩, ⟨2⟩]) (.Float_vector [.finite 1, .finite 0])
        ⟨none⟩).2.GetProperty 5 .gID_mutationFractions).1 =
      .value (.heap 5 (.Float_vector [.finite 1, .finite 0])) ∧
    ((GenomicElementType.mk (some ⟨1, [.finite 2]⟩) none 7 [⟨3⟩] [.finite 2] 42).ExecuteInstanceMethod
        ⟨fun _ => true, fun _ => true⟩ .gID_setMutationFractions
        (.Object_vector [⟨1⟩, ⟨2⟩]) (.Float_vector [.finite 1, .finite 0])
        ⟨none⟩).2.mutation_type_ptrs_ = [⟨1⟩, ⟨2⟩] ∧
    ((GenomicElementType.mk (some ⟨1, [.finite 2]⟩) none 7 [⟨3⟩] [.finite 2] 42).ExecuteInstanceMethod
        ⟨fun _ => true, fun _ => true⟩ .gID_setMutationFractions
        (.Object_vector [⟨1⟩, ⟨2⟩]) (.Float_vector [.finite 1, .finite 0])
        ⟨none⟩).2.mutation_fractions_ = [.finite 1, .finite 0] :=
  C4_setMutationFractions_replaces ⟨fun _ => true, fun _ => true⟩ _ (.Object_vector [⟨1⟩, ⟨2⟩])
    [.finite 1, .finite 0] [⟨1⟩, ⟨2⟩] ⟨none⟩ 5
    (setMutationFractions_mutation_types_Object_vector _ _ _) (by decide) (by decide) (by decide)

namespace GenomicElementType

/-! ## What each method leaves untouched -/

theorem setMutationFractions_loop_fractions_from (G : SlimGlobal) (I : EidosInterpreter)
    (a0 a1 : EidosValue) (n i : Nat) (mts : List MutationTypePtr) (mfs : List Double)
    (x : List MutationTypePtr) (y : List Double)
    (h : setMutationFractions_loop G I a0 a1 n i mts mfs = .ok (x, y)) :
    ∀ w ∈ y, w ∈ mfs ∨ ∃ j, a1.FloatAtIndex j = .ok w := by
  induction n generalizing i mts mfs with
  | zero =>
    simp only [setMutationFractions_loop, Except.ok.injEq, Prod.mk.injEq] at h
    obtain ⟨rfl, rfl⟩ := h
    intro w hw
    exact Or.inl hw
  | succ n ih =>
    unfold setMutationFractions_loop at h
    split at h
    · cases h
    · rename_i proportion hf
      split at h
      · cases h
      · split at h
        · cases h
        · split at h
          · cases h
          · intro w hw
            rcases ih (i + 1) _ _ h w hw with hmem | hex
            · rcases List.mem_append.mp hmem with hm | hm
              · exact Or.inl hm
              · simp only [List.mem_singleton] at hm
                subst hm
                exact Or.inr ⟨i, hf⟩
            · exact Or.inr hex

theorem FloatAtIndex_isNaN (a1 : EidosValue) (j : Nat) (w : Double)
    (h : a1.FloatAtIndex j = .ok w) (hn : a1.hasNaN = false) : w.isNaN = false := by
  cases a1 with
  | NULL => simp [EidosValue.FloatAtIndex] at h
  | Int_singleton v =>
    simp only [EidosValue.FloatAtIndex] at h
    split at h
    · cases h; rfl
    · cases h
  | Int_vector vs =>
    simp only [EidosValue.FloatAtIndex] at h
    split at h
    · cases h; rfl
    · cases h
  | Float_vector vs =>
    simp only [EidosValue.FloatAtIndex] at h
    split at h
    · rename_i v hv
      cases h
      simp only [EidosValue.hasNaN, List.any_eq_false] at hn
      have hmem : w ∈ vs := List.getElem?_mem hv
      simpa using hn w hmem
    · cases h
  | Object_vector ps => simp [EidosValue.FloatAtIndex] at h

theorem ExecuteInstanceMethod_frame (G : SlimGlobal) (self : GenomicElementType)
    (m : EidosGlobalStringID) (a0 a1 : EidosValue) (I : EidosInterpreter) :
    (self.ExecuteInstanceMethod G m a0 a1 I).2.genomic_element_type_id_ =
        self.genomic_element_type_id_ ∧
      (self.ExecuteInstanceMethod G m a0 a1 I).2.tag_value_ = self.tag_value_ ∧
      (self.ExecuteInstanceMethod G m a0 a1 I).2.cached_value_getype_id_ =
        self.cached_value_getype_id_ := by
  rcases ExecuteInstanceMethod_cases G self m a0 a1 I with ⟨hs, _⟩ | ⟨x, y, _, _, _, _, _, _, heq⟩
  · rw [hs]; exact ⟨rfl, rfl, rfl⟩
  · rw [heq]; exact ⟨rfl, rfl, rfl⟩

theorem SetProperty_cases (G : SlimGlobal) (self : GenomicElementType)
    (pid : EidosGlobalStringID) (v : EidosValue) :
    (self.SetProperty G pid v).2 = self ∨
      ∃ t, pid = .gID_tag ∧ (self.SetProperty G pid v).2 = { self with tag_value_ := t } := by
  unfold SetProperty
  cases pid <;> try (left; rfl)
  cases v.IntAtIndex 0 with
  | error e => left; rfl
  | ok i =>
    cases hc : SLiMCastToUsertagTypeOrRaise G i with
    | error e => left; simp [hc]
    | ok t => right; exact ⟨t, rfl, by simp [hc]⟩

theorem GetProperty_cases (self : GenomicElementType) (alloc : Nat) (pid : EidosGlobalStringID) :
    (self.GetProperty alloc pid).2.1 = self ∨
      (pid = .gID_id ∧ self.cached_value_getype_id_ = none ∧
        (self.GetProperty alloc pid).2.1 =
          { self with
            cached_value_getype_id_ :=
              some (EidosValuePtr.heap alloc (.Int_singleton self.genomic_element_type_id_)) }) := by
  unfold GetProperty
  cases pid <;> try (left; rfl)
  cases hc : self.cached_value_getype_id_ with
  | none => right; exact ⟨rfl, rfl, by simp⟩
  | some v => left; simp

end GenomicElementType

/-! ## Invariants of sequences of calls -/

/-- The lookup table is the one `InitializeDraws` builds from the current vectors. -/
theorem World.call_withDraws (G : SlimGlobal) (w : World) (c : Call)
    (h : w.self.withDraws = w.self) : (w.call G c).2.self.withDraws = (w.call G c).2.self := by
  cases c with
  | GetProperty pid =>
    simp only [World.call]
    rcases GetProperty_cases w.self w.alloc pid with hs | ⟨_, _, hs⟩
    · rw [hs]; exact h
    · rw [hs]
      have h2 := congrArg GenomicElementType.lookup_mutation_type_ h
      simp only [withDraws] at h2 ⊢
      rw [h2]
  | SetProperty pid v =>
    simp only [World.call]
    rcases SetProperty_cases G w.self pid v with hs | ⟨t, _, hs⟩
    · rw [hs]; exact h
    · rw [hs]
      have h2 := congrArg GenomicElementType.lookup_mutation_type_ h
      simp only [withDraws] at h2 ⊢
      rw [h2]
  | ExecuteInstanceMethod m a0 a1 I =>
    simp only [World.call]
    rcases ExecuteInstanceMethod_cases G w.self m a0 a1 I with
      ⟨hs, _⟩ | ⟨x, y, _, _, _, _, _, _, heq⟩
    · rw [hs]; exact h
    · rw [heq]; rfl
  | DrawMutationType drawn => exact h

theorem World.run_withDraws (G : SlimGlobal) (w : World) (calls : List Call)
    (h : w.self.withDraws = w.self) : (w.run G calls).self.withDraws = (w.run G calls).self := by
  induction calls generalizing w with
  | nil => exact h
  | cons c cs ih => exact ih _ (World.call_withDraws G w c h)

namespace GenomicElementType

theorem InitializeDraws_frame (self : GenomicElementType) :
    self.InitializeDraws.2 =
      { self with lookup_mutation_type_ := self.InitializeDraws.2.lookup_mutation_type_ } := by
  unfold InitializeDraws
  simp only []
  split
  · rfl
  · split
    · split
      · split <;> rfl
      · rfl
    · rfl

theorem new_frame (id : Int) (cats : List MutationTypePtr) (ws : List Double)
    (g0 : GenomicElementType) (h : GenomicElementType.new id cats ws = .value g0) :
    g0.genomic_element_type_id_ = id ∧ g0.tag_value_ = tag_value_default ∧
      g0.cached_value_getype_id_ = none ∧ g0.mutation_type_ptrs_ = cats ∧
      g0.mutation_fractions_ = ws := by
  unfold GenomicElementType.new at h
  simp only [] at h
  split at h
  · rename_i u s heq
    cases h
    have hf := InitializeDraws_frame
      { lookup_mutation_type_ := none, cached_value_getype_id_ := none,
        genomic_element_type_id_ := id, mutation_type_ptrs_ := cats,
        mutation_fractions_ := ws, tag_value_ := tag_value_default }
    rw [heq] at hf
    simp only [] at hf
    rw [hf]
    exact ⟨rfl, rfl, rfl, rfl, rfl⟩
  · cases h
  · cases h

theorem new_of_valid (id : Int) (cats : List MutationTypePtr) (ws : List Double)
    (hlen : cats.length = ws.length) (hneg : ws.any Double.lt0 = false) :
    GenomicElementType.new id cats ws =
      .value (withDraws
        { lookup_mutation_type_ := none, cached_value_getype_id_ := none,
          genomic_element_type_id_ := id, mutation_type_ptrs_ := cats,
          mutation_fractions_ := ws, tag_value_ := tag_value_default }) := by
  unfold GenomicElementType.new
  simp only []
  rw [InitializeDraws_of_valid _ hlen hneg]

theorem DrawMutationType_SamplingError_iff (self : GenomicElementType) (drawn : Nat) :
    self.DrawMutationType drawn = .terminated .SamplingError ↔
      self.lookup_mutation_type_ = none := by
  unfold DrawMutationType
  cases self.lookup_mutation_type_ with
  | none => simp
  | some t =>
    simp only []
    cases self.mutation_type_ptrs_[drawn]? <;> simp

theorem lookup_eq_none_iff (self : GenomicElementType) (h : self.withDraws = self) :
    self.lookup_mutation_type_ = none ↔
      (self.mutation_fractions_ = [] ∨ ∀ w ∈ self.mutation_fractions_, w.gt0 = false) := by
  have h2 := congrArg GenomicElementType.lookup_mutation_type_ h
  simp only [withDraws] at h2
  rw [← h2]
  by_cases hs : self.mutation_fractions_.any Double.gt0 = true
  · simp only [hs, if_true]
    constructor
    · intro hc; cases hc
    · intro hc
      exfalso
      rcases hc with hc | hc
      · simp [hc] at hs
      · obtain ⟨w, hw, hg⟩ := List.any_eq_true.mp hs
        rw [hc w hw] at hg
        cases hg
  · simp only [Bool.not_eq_true] at hs
    simp only [hs, Bool.false_eq_true, if_false, true_iff]
    right
    intro w hw
    simp only [List.any_eq_false] at hs
    simpa using hs w hw

theorem setMutationFractions_loop_Float_vector (G : SlimGlobal) (I : EidosInterpreter)
    (a0 : EidosValue) (ws : List Double) (n i : Nat) (mts : List MutationTypePtr)
    (mfs : List Double) (x : List MutationTypePtr) (y : List Double) (hn : i + n = ws.length)
    (h : setMutationFractions_loop G I a0 (.Float_vector ws) n i mts mfs = .ok (x, y)) :
    y = mfs ++ ws.drop i := by
  induction n generalizing i mts mfs with
  | zero =>
    simp only [setMutationFractions_loop, Except.ok.injEq, Prod.mk.injEq] at h
    obtain ⟨_, rfl⟩ := h
    have : ws.drop i = [] := List.drop_eq_nil_of_le (by omega)
    simp [this]
  | succ n ih =>
    have hi : i < ws.length := by omega
    unfold setMutationFractions_loop at h
    simp only [EidosValue.FloatAtIndex, List.getElem?_eq_getElem hi] at h
    split at h
    · cases h
    · split at h
      · cases h
      · split at h
        · cases h
        · have key := ih (i + 1) _ _ (by omega) h
          rw [key, List.append_assoc]
          congr 1
          simp

end GenomicElementType

theorem World.call_valid (G : SlimGlobal) (w : World) (c : Call) (hc : c.suppliesNaN = false)
    (h : w.self.mutation_type_ptrs_.length = w.self.mutation_fractions_.length ∧
      (∀ x ∈ w.self.mutation_fractions_, x.ge0 = true) ∧ w.self.mutation_type_ptrs_.Nodup) :
    (w.call G c).2.self.mutation_type_ptrs_.length =
        (w.call G c).2.self.mutation_fractions_.length ∧
      (∀ x ∈ (w.call G c).2.self.mutation_fractions_, x.ge0 = true) ∧
      (w.call G c).2.self.mutation_type_ptrs_.Nodup := by
  cases c with
  | GetProperty pid =>
    simp only [World.call]
    rcases GetProperty_cases w.self w.alloc pid with hs | ⟨_, _, hs⟩ <;> rw [hs] <;> exact h
  | SetProperty pid v =>
    simp only [World.call]
    rcases SetProperty_cases G w.self pid v with hs | ⟨t, _, hs⟩ <;> rw [hs] <;> exact h
  | ExecuteInstanceMethod m a0 a1 I =>
    simp only [World.call]
    rcases ExecuteInstanceMethod_cases G w.self m a0 a1 I with
      ⟨hs, _⟩ | ⟨x, y, hm, _, hl, hxy, hneg, hnd, heq⟩
    · rw [hs]; exact h
    · rw [heq]
      simp only [withDraws]
      refine ⟨hxy, ?_, hnd⟩
      intro d hd
      have hnan : a1.hasNaN = false := by
        simpa [Call.suppliesNaN, hm] using hc
      rcases setMutationFractions_loop_fractions_from G I a0 a1 _ 0 [] [] x y hl d hd with
        hmem | ⟨j, hj⟩
      · simp at hmem
      · apply Double.ge0_of_lt0_eq_false (FloatAtIndex_isNaN a1 j d hj hnan)
        rw [List.any_eq_false] at hneg
        simpa using hneg d hd
  | DrawMutationType drawn => exact h

theorem World.run_valid (G : SlimGlobal) (w : World) (calls : List Call)
    (hc : ∀ c ∈ calls, c.suppliesNaN = false)
    (h : w.self.mutation_type_ptrs_.length = w.self.mutation_fractions_.length ∧
      (∀ x ∈ w.self.mutation_fractions_, x.ge0 = true) ∧ w.self.mutation_type_ptrs_.Nodup) :
    (w.run G calls).self.mutation_type_ptrs_.length =
        (w.run G calls).self.mutation_fractions_.length ∧
      (∀ x ∈ (w.run G calls).self.mutation_fractions_, x.ge0 = true) ∧
      (w.run G calls).self.mutation_type_ptrs_.Nodup := by
  induction calls generalizing w with
  | nil => exact h
  | cons c cs ih =>
    exact ih _ (fun c' hc' => hc c' (by simp [hc']))
      (World.call_valid G w c (hc c (by simp)) h)

theorem Double.any_lt0_eq_false_of_ge0 (ws : List Double) (hge : ∀ w ∈ ws, w.ge0 = true) :
    ws.any Double.lt0 = false := by
  rw [List.any_eq_false]
  intro w hw
  simp [Double.lt0_eq_false_of_ge0 (hge w hw)]

/-- C5 — draw-readiness follows the current weights. A descriptor constructed from
equal-length lists with weights `>= 0` exists, and (1) a draw on it signals the sampling
error exactly when the construction weights are empty or all zero; (2) after any sequence
of calls (property reads and writes, successful or failing `setMutationFractions`, draws)
a draw signals the sampling error exactly when the current weights are empty or hold no
entry `> 0`; (3) after a successful `setMutationFractions` with float weights `ws1` a draw
signals the sampling error exactly when `ws1` is empty or holds no entry `> 0`. -/
theorem C5_draw_readiness (G : SlimGlobal) (id : Int) (cats : List MutationTypePtr)
    (ws : List Double) (hlen : cats.length = ws.length) (hge : ∀ w ∈ ws, w.ge0 = true) :
    ∃ g0, GenomicElementType.new id cats ws = .value g0 ∧
      (∀ drawn, g0.DrawMutationType drawn = .terminated .SamplingError ↔
        (ws = [] ∨ ∀ w ∈ ws, w.eq0 = true)) ∧
      (∀ alloc calls drawn,
        (World.run G ⟨g0, alloc⟩ calls).self.DrawMutationType drawn =
            .terminated .SamplingError ↔
          ((World.run G ⟨g0, alloc⟩ calls).self.mutation_fractions_ = [] ∨
            ∀ w ∈ (World.run G ⟨g0, alloc⟩ calls).self.mutation_fractions_, w.gt0 = false)) ∧
      (∀ alloc calls arg0_value ws1 p_interpreter drawn,
        ((World.run G ⟨g0, alloc⟩ calls).self.ExecuteInstanceMethod G .gID_setMutationFractions
            arg0_value (.Float_vector ws1) p_interpreter).1 =
          .value .gStaticEidosValueNULLInvisible →
        (((World.run G ⟨g0, alloc⟩ calls).self.ExecuteInstanceMethod G
            .gID_setMutationFractions arg0_value (.Float_vector ws1)
            p_interpreter).2.DrawMutationType drawn = .terminated .SamplingError ↔
          (ws1 = [] ∨ ∀ w ∈ ws1, w.gt0 = false))) := by
  have hnew := new_of_valid id cats ws hlen (Double.any_lt0_eq_false_of_ge0 ws hge)
  refine ⟨_, hnew, ?_, ?_, ?_⟩
  · intro drawn
    rw [DrawMutationType_SamplingError_iff, lookup_eq_none_iff _ rfl]
    simp only [withDraws]
    constructor
    · rintro (h | h)
      · exact Or.inl h
      · exact Or.inr fun w hw => Double.eq0_of_ge0_of_not_gt0 (hge w hw) (h w hw)
    · rintro (h | h)
      · exact Or.inl h
      · exact Or.inr fun w hw => Double.gt0_eq_false_of_eq0 (h w hw)
  · intro alloc calls drawn
    rw [DrawMutationType_SamplingError_iff]
    exact lookup_eq_none_iff _ (World.run_withDraws G _ calls rfl)
  · intro alloc calls a0 ws1 I drawn hok
    rcases ExecuteInstanceMethod_cases G (World.run G ⟨_, alloc⟩ calls).self
      .gID_setMutationFractions a0 (.Float_vector ws1) I with
      ⟨_, hne⟩ | ⟨x, y, _, hc, hl, _, _, _, heq⟩
    · exact absurd hok (hne _)
    · have hy : y = ws1 := by
        have := setMutationFractions_loop_Float_vector G I a0 ws1 _ 0 [] [] x y
          (by rw [hc]; simp [EidosValue.Count]) hl
        simpa using this
      subst hy
      rw [heq, DrawMutationType_SamplingError_iff, lookup_eq_none_iff _ rfl]
      simp [withDraws]

/-- C5, witness: the descriptor constructed from `[A,B]`, `[0,0]`. -/
theorem C5_draw_readiness_witness :
    ∃ g0, GenomicElementType.new 7 [⟨1⟩, ⟨2⟩] [.finite 0, .finite 0] = .value g0 ∧
      (∀ drawn, g0.DrawMutationType drawn = .terminated .SamplingError ↔
        (([.finite 0, .finite 0] : List Double) = [] ∨
          ∀ w ∈ ([.finite 0, .finite 0] : List Double), w.eq0 = true)) ∧
      (∀ alloc calls drawn,
        (World.run ⟨fun _ => true, fun _ => true⟩ ⟨g0, alloc⟩ calls).self.DrawMutationType drawn =
            .terminated .SamplingError ↔
          ((World.run ⟨fun _ => true, fun _ => true⟩ ⟨g0, alloc⟩ calls).self.mutation_fractions_ = [] ∨
            ∀ w ∈ (World.run ⟨fun _ => true, fun _ => true⟩ ⟨g0, alloc⟩
              calls).self.mutation_fractions_, w.gt0 = false)) ∧
      (∀ alloc calls arg0_value ws1 p_interpreter drawn,
        ((World.run ⟨fun _ => true, fun _ => true⟩ ⟨g0, alloc⟩ calls).self.ExecuteInstanceMethod
            ⟨fun _ => true, fun _ => true⟩ .gID_setMutationFractions
            arg0_value (.Float_vector ws1) p_interpreter).1 =
          .value .gStaticEidosValueNULLInvisible →
        (((World.run ⟨fun _ => true, fun _ => true⟩ ⟨g0, alloc⟩ calls).self.ExecuteInstanceMethod
            ⟨fun _ => true, fun _ => true⟩
            .gID_setMutationFractions arg0_value (.Float_vector ws1)
            p_interpreter).2.DrawMutationType drawn = .terminated .SamplingError ↔
          (ws1 = [] ∨ ∀ w ∈ ws1, w.gt0 = false))) :=
  C5_draw_readiness ⟨fun _ => true, fun _ => true⟩ 7 [⟨1⟩, ⟨2⟩] [.finite 0, .finite 0]
    (by decide) (by decide)

/-- C6, counterexample: construction does not check its lists. From `[A,A]`, `[1,1]` it
succeeds and stores a category twice; from `[A]`, `[-1]` it succeeds and stores a negative
weight. -/
theorem C6_counterexample :
    (GenomicElementType.new 7 [⟨1⟩, ⟨1⟩] [.finite 1, .finite 1] =
      .value (GenomicElementType.mk (some ⟨2, [.finite 1, .finite 1]⟩) none 7 [⟨1⟩, ⟨1⟩]
        [.finite 1, .finite 1] 0) ∧
      ¬ ([⟨1⟩, ⟨1⟩] : List MutationTypePtr).Nodup) ∧
    (GenomicElementType.new 7 [⟨1⟩] [.finite (-1)] =
      .value (GenomicElementType.mk none none 7 [⟨1⟩] [.finite (-1)] 0) ∧
      (Double.finite (-1)).ge0 = false) := by
  decide

/-- C6, amended — the data-model invariants hold in every state reached from a valid
construction: for every descriptor constructed from equal-length lists with every weight
`>= 0` and no category twice, and after any sequence of calls (property reads and writes,
successful or failing `setMutationFractions`, draws) in which no `setMutationFractions`
is given a NaN weight, the stored lists have equal lengths, every stored weight is `>= 0`
and no category is stored twice. -/
theorem C6_invariants (G : SlimGlobal) (id : Int) (cats : List MutationTypePtr)
    (ws : List Double) (alloc : Nat) (calls : List Call)
    (hlen : cats.length = ws.length) (hge : ∀ w ∈ ws, w.ge0 = true) (hnd : cats.Nodup)
    (hnan : ∀ c ∈ calls, c.suppliesNaN = false) :
    ∃ g0, GenomicElementType.new id cats ws = .value g0 ∧
      (World.run G ⟨g0, alloc⟩ calls).self.mutation_type_ptrs_.length =
        (World.run G ⟨g0, alloc⟩ calls).self.mutation_fractions_.length ∧
      (∀ w ∈ (World.run G ⟨g0, alloc⟩ calls).self.mutation_fractions_, w.ge0 = true) ∧
      (World.run G ⟨g0, alloc⟩ calls).self.mutation_type_ptrs_.Nodup := by
  have hnew := new_of_valid id cats ws hlen (Double.any_lt0_eq_false_of_ge0 ws hge)
  exact ⟨_, hnew, World.run_valid G _ calls hnan ⟨hlen, hge, hnd⟩⟩

/-- C6, witness: constructed from `[A,B]`, `[1,0]`; then a failing `setMutationFractions`
(`[A,A]`, `[1,1]`), a successful one (`[B]`, `[2]`) and a tag write. -/
theorem C6_invariants_witness :
    ∃ g0, GenomicElementType.new 7 [⟨1⟩, ⟨2⟩] [.finite 1, .finite 0] = .value g0 ∧
      (World.run ⟨fun _ => true, fun _ => true⟩ ⟨g0, 0⟩
        [.ExecuteInstanceMethod .gID_setMutationFractions (.Object_vector [⟨1⟩, ⟨1⟩])
            (.Float_vector [.finite 1, .finite 1]) ⟨none⟩,
          .ExecuteInstanceMethod .gID_setMutationFractions (.Object_vector [⟨2⟩])
            (.Float_vector [.finite 2]) ⟨none⟩,
          .SetProperty .gID_tag (.Int_singleton 5)]).self.mutation_type_ptrs_.length =
        (World.run ⟨fun _ => true, fun _ => true⟩ ⟨g0, 0⟩
        [.ExecuteInstanceMethod .gID_setMutationFractions (.Object_vector [⟨1⟩, ⟨1⟩])
            (.Float_vector [.finite 1, .finite 1]) ⟨none⟩,
          .ExecuteInstanceMethod .gID_setMutationFractions (.Object_vector [⟨2⟩])
            (.Float_vector [.finite 2]) ⟨none⟩,
          .SetProperty .gID_tag (.Int_singleton 5)]).self.mutation_fractions_.length ∧
      (∀ w ∈ (World.run ⟨fun _ => true, fun _ => true⟩ ⟨g0, 0⟩
        [.ExecuteInstanceMethod .gID_setMutationFractions (.Object_vector [⟨1⟩, ⟨1⟩])
            (.Float_vector [.finite 1, .finite 1]) ⟨none⟩,
          .ExecuteInstanceMethod .gID_setMutationFractions (.Object_vector [⟨2⟩])
            (.Float_vector [.finite 2]) ⟨none⟩,
          .SetProperty .gID_tag (.Int_singleton 5)]).self.mutation_fractions_, w.ge0 = true) ∧
      (World.run ⟨fun _ => true, fun _ => true⟩ ⟨g0, 0⟩
        [.ExecuteInstanceMethod .gID_setMutationFractions (.Object_vector [⟨1⟩, ⟨1⟩])
            (.Float_vector [.finite 1, .finite 1]) ⟨none⟩,
          .ExecuteInstanceMethod .gID_setMutationFractions (.Object_vector [⟨2⟩])
            (.Float_vector [.finite 2]) ⟨none⟩,
          .SetProperty .gID_tag (.Int_singleton 5)]).self.mutation_type_ptrs_.Nodup :=
  C6_invariants ⟨fun _ => true, fun _ => true⟩ 7 [⟨1⟩, ⟨2⟩] [.finite 1, .finite 0] 0 _
    (by decide) (by decide) (by decide) (by decide)

theorem World.call_frame (G : SlimGlobal) (w : World) (c : Call) :
    (w.call G c).2.self.genomic_element_type_id_ = w.self.genomic_element_type_id_ ∧
      (c.isTagWrite = false → (w.call G c).2.self.tag_value_ = w.self.tag_value_) ∧
      (∀ v, w.self.cached_value_getype_id_ = some v →
        (w.call G c).2.self.cached_value_getype_id_ = some v) ∧
      (c ≠ .GetProperty .gID_id →
        (w.call G c).2.self.cached_value_getype_id_ = w.self.cached_value_getype_id_) := by
  cases c with
  | GetProperty pid =>
    simp only [World.call]
    rcases GetProperty_cases w.self w.alloc pid with hs | ⟨hp, hn, hs⟩
    · rw [hs]; exact ⟨rfl, fun _ => rfl, fun v hv => hv, fun _ => rfl⟩
    · rw [hs]
      refine ⟨rfl, fun _ => rfl, ?_, ?_⟩
      · intro v hv
        rw [hn] at hv
        cases hv
      · intro hne
        exact absurd (by rw [hp]) hne
  | SetProperty pid v =>
    simp only [World.call]
    rcases SetProperty_cases G w.self pid v with hs | ⟨t, hp, hs⟩
    · rw [hs]; exact ⟨rfl, fun _ => rfl, fun v hv => hv, fun _ => rfl⟩
    · rw [hs]
      refine ⟨rfl, ?_, fun v hv => hv, fun _ => rfl⟩
      intro ht
      subst hp
      simp [Call.isTagWrite] at ht
  | ExecuteInstanceMethod m a0 a1 I =>
    simp only [World.call]
    obtain ⟨h1, h2, h3⟩ := ExecuteInstanceMethod_frame G w.self m a0 a1 I
    refine ⟨h1, fun _ => h2, ?_, fun _ => h3⟩
    intro v hv
    rw [h3]
    exact hv
  | DrawMutationType drawn =>
    exact ⟨rfl, fun _ => rfl, fun v hv => hv, fun _ => rfl⟩

theorem World.run_tag (G : SlimGlobal) (w : World) (calls : List Call)
    (hc : ∀ c ∈ calls, c.isTagWrite = false) :
    (w.run G calls).self.tag_value_ = w.self.tag_value_ := by
  induction calls generalizing w with
  | nil => rfl
  | cons c cs ih =>
    simp only [World.run]
    rw [ih _ (fun c' hc' => hc c' (by simp [hc']))]
    exact (World.call_frame G w c).2.1 (hc c (by simp))

/-- C7 — a freshly constructed descriptor has tag 0: whenever construction succeeds, a
read of the property `tag` returns 0, and it still does after any sequence of calls that
holds no tag write. -/
theorem C7_fresh_tag_is_zero (G : SlimGlobal) (id : Int) (cats : List MutationTypePtr)
    (ws : List Double) (g0 : GenomicElementType) (alloc alloc1 : Nat) (calls : List Call)
    (hnew : GenomicElementType.new id cats ws = .value g0)
    (hcalls : ∀ c ∈ calls, c.isTagWrite = false) :
    (g0.GetProperty alloc .gID_tag).1 = .value (.heap alloc (.Int_singleton 0)) ∧
    ((World.run G ⟨g0, alloc⟩ calls).self.GetProperty alloc1 .gID_tag).1 =
      .value (.heap alloc1 (.Int_singleton 0)) := by
  obtain ⟨_, ht, _, _, _⟩ := new_frame id cats ws g0 hnew
  have hr := World.run_tag G ⟨g0, alloc⟩ calls hcalls
  simp only [GetProperty, hr, ht, tag_value_default, and_self]

/-- C7, witness: constructed from `[A]`, `[1]`, read at once and after a
`setMutationFractions`. -/
theorem C7_fresh_tag_is_zero_witness :
    GenomicElementType.new 7 [⟨1⟩] [.finite 1] =
      .value (GenomicElementType.mk (some ⟨1, [.finite 1]⟩) none 7 [⟨1⟩] [.finite 1] 0) ∧
    ((GenomicElementType.mk (some ⟨1, [.finite 1]⟩) none 7 [⟨1⟩] [.finite 1] 0).GetProperty 3
        .gID_tag).1 = .value (.heap 3 (.Int_singleton 0)) ∧
    ((World.run ⟨fun _ => true, fun _ => true⟩
        ⟨GenomicElementType.mk (some ⟨1, [.finite 1]⟩) none 7 [⟨1⟩] [.finite 1] 0, 3⟩
        [.ExecuteInstanceMethod .gID_setMutationFractions (.Object_vector [⟨2⟩])
          (.Float_vector [.finite 2]) ⟨none⟩]).self.GetProperty 4 .gID_tag).1 =
      .value (.heap 4 (.Int_singleton 0)) :=
  ⟨by decide, C7_fresh_tag_is_zero ⟨fun _ => true, fun _ => true⟩ 7 [⟨1⟩] [.finite 1] _ 3 4 _
    (by decide) (by decide)⟩

/-- C8 — tag write and read round trip: for every descriptor and every integer `v` the
range check accepts, `SetProperty(tag, v)` returns normally, and afterwards a read of the
property `tag` returns `v`, whatever the tag was before; it keeps returning `v` after any
later sequence of calls that holds no tag write (successful and failing
`setMutationFractions` among them). -/
theorem C8_tag_round_trip (G : SlimGlobal) (self : GenomicElementType) (v : Int)
    (alloc alloc1 : Nat) (calls : List Call) (hv : G.usertag_in_range v = true)
    (hcalls : ∀ c ∈ calls, c.isTagWrite = false) :
    (self.SetProperty G .gID_tag (.Int_singleton v)).1 = .value () ∧
    ((self.SetProperty G .gID_tag (.Int_singleton v)).2.GetProperty alloc .gID_tag).1 =
      .value (.heap alloc (.Int_singleton v)) ∧
    ((World.run G ⟨(self.SetProperty G .gID_tag (.Int_singleton v)).2, alloc⟩
        calls).self.GetProperty alloc1 .gID_tag).1 = .value (.heap alloc1 (.Int_singleton v)) := by
  have hr := World.run_tag G ⟨(self.SetProperty G .gID_tag (.Int_singleton v)).2, alloc⟩ calls
    hcalls
  have hs : self.SetProperty G .gID_tag (.Int_singleton v) =
      (.value (), { self with tag_value_ := v }) := by
    simp [SetProperty, EidosValue.IntAtIndex, SLiMCastToUsertagTypeOrRaise, hv]
  simp only [GetProperty, hr]
  rw [hs]
  exact ⟨rfl, rfl, rfl⟩

/-- C8, witness: tag 42 written over tag 5, then a failing and a successful
`setMutationFractions`. -/
theorem C8_tag_round_trip_witness :
    ((GenomicElementType.mk none none 7 [] [] 5).SetProperty ⟨fun _ => true, fun _ => true⟩
        .gID_tag (.Int_singleton 42)).1 = .value () ∧
    (((GenomicElementType.mk none none 7 [] [] 5).SetProperty ⟨fun _ => true, fun _ => true⟩
        .gID_tag (.Int_singleton 42)).2.GetProperty 3 .gID_tag).1 =
      .value (.heap 3 (.Int_singleton 42)) ∧
    ((World.run ⟨fun _ => true, fun _ => true⟩
        ⟨((GenomicElementType.mk none none 7 [] [] 5).SetProperty ⟨fun _ => true, fun _ => true⟩
          .gID_tag (.Int_singleton 42)).2, 3⟩
        [.ExecuteInstanceMethod .gID_setMutationFractions (.Object_vector [⟨1⟩, ⟨1⟩])
            (.Float_vector [.finite 1, .finite 1]) ⟨none⟩,
          .ExecuteInstanceMethod .gID_setMutationFractions (.Object_vector [⟨2⟩])
            (.Float_vector [.finite 2]) ⟨none⟩]).self.GetProperty 4 .gID_tag).1 =
      .value (.heap 4 (.Int_singleton 42)) :=
  C8_tag_round_trip ⟨fun _ => true, fun _ => true⟩ _ 42 3 4 _ rfl (by decide)

theorem World.outcomes_id_of_cached (G : SlimGlobal) (w : World) (calls : List Call)
    (v : EidosValuePtr) (hv : w.self.cached_value_getype_id_ = some v) (k : Nat)
    (hk : calls[k]? = some (.GetProperty .gID_id)) :
    (World.outcomes G w calls)[k]? = some (.value (.eidosValue v)) := by
  induction calls generalizing w k with
  | nil => simp at hk
  | cons c cs ih =>
    cases k with
    | zero =>
      simp only [List.getElem?_cons_zero, Option.some.injEq] at hk
      subst hk
      simp [World.outcomes, World.call, GetProperty, hv, Outcome.map]
    | succ k =>
      simp only [List.getElem?_cons_succ] at hk
      simp only [World.outcomes, List.getElem?_cons_succ]
      exact ih _ ((World.call_frame G w c).2.2.1 v hv) k hk

theorem World.outcomes_id_of_not_cached (G : SlimGlobal) (w : World) (calls : List Call)
    (hn : w.self.cached_value_getype_id_ = none) :
    ∃ a : Nat, ∀ k : Nat, calls[k]? = some (.GetProperty .gID_id) →
      (World.outcomes G w calls)[k]? =
        some (.value (.eidosValue (.heap a (.Int_singleton w.self.genomic_element_type_id_)))) := by
  induction calls generalizing w with
  | nil => exact ⟨0, fun k hk => by simp at hk⟩
  | cons c cs ih =>
    by_cases hc : c = .GetProperty .gID_id
    · subst hc
      refine ⟨w.alloc, ?_⟩
      intro k hk
      cases k with
      | zero => simp [World.outcomes, World.call, GetProperty, hn, Outcome.map]
      | succ k =>
        simp only [List.getElem?_cons_succ] at hk
        simp only [World.outcomes, List.getElem?_cons_succ]
        apply World.outcomes_id_of_cached G _ cs _ _ k hk
        simp [World.call, GetProperty, hn]
    · obtain ⟨h1, _, _, h4⟩ := World.call_frame G w c
      obtain ⟨a, ha⟩ := ih (w.call G c).2 (by rw [h4 hc]; exact hn)
      refine ⟨a, ?_⟩
      intro k hk
      cases k with
      | zero =>
        simp only [List.getElem?_cons_zero, Option.some.injEq] at hk
        exact absurd hk hc
      | succ k =>
        simp only [List.getElem?_cons_succ] at hk
        simp only [World.outcomes, List.getElem?_cons_succ]
        rw [ha k hk, h1]

theorem World.run_id (G : SlimGlobal) (w : World) (calls : List Call) :
    (w.run G calls).self.genomic_element_type_id_ = w.self.genomic_element_type_id_ := by
  induction calls generalizing w with
  | nil => rfl
  | cons c cs ih =>
    simp only [World.run]
    rw [ih, (World.call_frame G w c).1]

/-- C9 — the id is write-once and its read is cached: for every constructed descriptor
and every sequence of calls (property reads, property writes with any identifier,
successful or failing `setMutationFractions`, draws), the member id keeps the value given
at construction, and there is one value object, an integer singleton holding that id,
which every read of the property `id` in the sequence returns. -/
theorem C9_id_write_once_cached (G : SlimGlobal) (id : Int) (cats : List MutationTypePtr)
    (ws : List Double) (g0 : GenomicElementType) (alloc : Nat) (calls : List Call)
    (hnew : GenomicElementType.new id cats ws = .value g0) :
    (World.run G ⟨g0, alloc⟩ calls).self.genomic_element_type_id_ = id ∧
    ∃ a : Nat, ∀ k : Nat, calls[k]? = some (.GetProperty .gID_id) →
      (World.outcomes G ⟨g0, alloc⟩ calls)[k]? =
        some (.value (.eidosValue (.heap a (.Int_singleton id)))) := by
  obtain ⟨hid, _, hc, _, _⟩ := new_frame id cats ws g0 hnew
  refine ⟨?_, ?_⟩
  · rw [World.run_id]; exact hid
  · have h := World.outcomes_id_of_not_cached G ⟨g0, alloc⟩ calls hc
    simp only [hid] at h
    exact h

/-- C9, witness: constructed with id 7 from `[A]`, `[1]`; the calls are a read of `tag`, a
read of `id`, a successful `setMutationFractions`, a write of `id` and a read of `id`. -/
theorem C9_id_write_once_cached_witness :
    GenomicElementType.new 7 [⟨1⟩] [.finite 1] =
      .value (GenomicElementType.mk (some ⟨1, [.finite 1]⟩) none 7 [⟨1⟩] [.finite 1] 0) ∧
    World.outcomes ⟨fun _ => true, fun _ => true⟩
        ⟨GenomicElementType.mk (some ⟨1, [.finite 1]⟩) none 7 [⟨1⟩] [.finite 1] 0, 10⟩
        [.GetProperty .gID_tag, .GetProperty .gID_id,
          .ExecuteInstanceMethod .gID_setMutationFractions (.Object_vector [⟨2⟩])
            (.Float_vector [.finite 2]) ⟨none⟩,
          .SetProperty .gID_id (.Int_singleton 9), .GetProperty .gID_id] =
      [.value (.eidosValue (.heap 10 (.Int_singleton 0))),
        .value (.eidosValue (.heap 11 (.Int_singleton 7))),
        .value (.eidosValue .gStaticEidosValueNULLInvisible),
        .baseClass,
        .value (.eidosValue (.heap 11 (.Int_singleton 7)))] ∧
    ((World.run ⟨fun _ => true, fun _ => true⟩
        ⟨GenomicElementType.mk (some ⟨1, [.finite 1]⟩) none 7 [⟨1⟩] [.finite 1] 0, 10⟩
        [.GetProperty .gID_tag, .GetProperty .gID_id,
          .ExecuteInstanceMethod .gID_setMutationFractions (.Object_vector [⟨2⟩])
            (.Float_vector [.finite 2]) ⟨none⟩,
          .SetProperty .gID_id (.Int_singleton 9),
          .GetProperty .gID_id]).self.genomic_element_type_id_ = 7 ∧
      ∃ a : Nat, ∀ k : Nat,
        ([.GetProperty .gID_tag, .GetProperty .gID_id,
          .ExecuteInstanceMethod .gID_setMutationFractions (.Object_vector [⟨2⟩])
            (.Float_vector [.finite 2]) ⟨none⟩,
          .SetProperty .gID_id (.Int_singleton 9), .GetProperty .gID_id] : List Call)[k]? =
            some (.GetProperty .gID_id) →
        (World.outcomes ⟨fun _ => true, fun _ => true⟩
          ⟨GenomicElementType.mk (some ⟨1, [.finite 1]⟩) none 7 [⟨1⟩] [.finite 1] 0, 10⟩
          [.GetProperty .gID_tag, .GetProperty .gID_id,
            .ExecuteInstanceMethod .gID_setMutationFractions (.Object_vector [⟨2⟩])
              (.Float_vector [.finite 2]) ⟨none⟩,
            .SetProperty .gID_id (.Int_singleton 9), .GetProperty .gID_id])[k]? =
          some (.value (.eidosValue (.heap a (.Int_singleton 7))))) :=
  ⟨by decide, by decide,
    C9_id_write_once_cached ⟨fun _ => true, fun _ => true⟩ 7 [⟨1⟩] [.finite 1] _ 10 _ (by decide)⟩

/-! ## The lookup table and the current vectors -/

theorem GenomicElementType.InitializeDraws_value (self s : GenomicElementType) (u : Unit)
    (h : self.InitializeDraws = (.value u, s)) :
    s = self.withDraws ∧ self.mutation_type_ptrs_.length = self.mutation_fractions_.length := by
  by_cases hlen : self.mutation_type_ptrs_.length = self.mutation_fractions_.length
  · refine ⟨?_, hlen⟩
    unfold InitializeDraws at h
    unfold withDraws
    simp only [hlen, ne_eq, not_true_eq_false, if_false, InitializeDraws_foldl, List.nil_append,
      Bool.false_or] at h
    by_cases h0 : self.mutation_fractions_.length = 0
    · have hnil : self.mutation_fractions_ = [] := List.length_eq_zero.mp h0
      simp [hnil] at h ⊢
      exact h.symm
    · by_cases hs : self.mutation_fractions_.any Double.gt0 = true
      · simp only [h0, not_false_eq_true, if_true, hs] at h
        simp only [hs, if_true, hlen]
        unfold gsl_ran_discrete_preproc at h
        split at h
        · rename_i table ht
          split at ht
          · cases ht
          · split at ht
            · cases ht
            · cases ht
              simp only [Prod.mk.injEq] at h
              exact h.2.symm
        · cases h
      · simp only [Bool.not_eq_true] at hs
        simp only [h0, not_false_eq_true, if_true, hs, Bool.false_eq_true, if_false,
          Prod.mk.injEq] at h
        simp only [hs, Bool.false_eq_true, if_false]
        exact h.2.symm
  · rw [InitializeDraws_of_sizes self hlen] at h
    cases h

theorem GenomicElementType.new_inv (id : Int) (cats : List MutationTypePtr) (ws : List Double)
    (g0 : GenomicElementType) (h : GenomicElementType.new id cats ws = .value g0) :
    g0.withDraws = g0 ∧ g0.mutation_type_ptrs_.length = g0.mutation_fractions_.length := by
  unfold GenomicElementType.new at h
  simp only [] at h
  split at h
  · rename_i u s heq
    cases h
    obtain ⟨hs, hlen⟩ := InitializeDraws_value _ _ _ heq
    rw [hs]
    exact ⟨rfl, hlen⟩
  · cases h
  · cases h

theorem World.call_lengths (G : SlimGlobal) (w : World) (c : Call)
    (h : w.self.mutation_type_ptrs_.length = w.self.mutation_fractions_.length) :
    (w.call G c).2.self.mutation_type_ptrs_.length =
      (w.call G c).2.self.mutation_fractions_.length := by
  cases c with
  | GetProperty pid =>
    simp only [World.call]
    rcases GetProperty_cases w.self w.alloc pid with hs | ⟨_, _, hs⟩ <;> rw [hs] <;> exact h
  | SetProperty pid v =>
    simp only [World.call]
    rcases SetProperty_cases G w.self pid v with hs | ⟨t, _, hs⟩ <;> rw [hs] <;> exact h
  | ExecuteInstanceMethod m a0 a1 I =>
    simp only [World.call]
    rcases ExecuteInstanceMethod_cases G w.self m a0 a1 I with
      ⟨hs, _⟩ | ⟨x, y, _, _, _, hxy, _, _, heq⟩
    · rw [hs]; exact h
    · rw [heq]; exact hxy
  | DrawMutationType drawn => exact h

theorem World.run_lengths (G : SlimGlobal) (w : World) (calls : List Call)
    (h : w.self.mutation_type_ptrs_.length = w.self.mutation_fractions_.length) :
    (w.run G calls).self.mutation_type_ptrs_.length =
      (w.run G calls).self.mutation_fractions_.length := by
  induction calls generalizing w with
  | nil => exact h
  | cons c cs ih => exact ih _ (World.call_lengths G w c h)

theorem GenomicElementType.lookup_eq_some (self : GenomicElementType)
    (table : gsl_ran_discrete_t) (h : self.withDraws = self)
    (ht : self.lookup_mutation_type_ = some table) :
    table.P = self.mutation_fractions_ ∧ table.K = self.mutation_type_ptrs_.length := by
  have h2 := congrArg GenomicElementType.lookup_mutation_type_ h
  simp only [withDraws] at h2
  rw [ht] at h2
  split at h2
  · cases h2
    exact ⟨rfl, rfl⟩
  · cases h2

/-- C11 — a zero-weight category is never drawn. In every state reached from a successful
construction by any sequence of calls in which the lookup table is present (Drawable),
and for every index the draw of the sampler can return (an entry of the table with a
weight `> 0`), `DrawMutationType` returns the category stored at that index, and the
current weight stored at that index is `> 0`. In particular, for two distinct categories
`A` and `B`: the descriptor constructed from `[A,B]`, `[0,0]` signals the sampling error
on a draw, `setMutationFractions([A,B], [1,0])` succeeds on it, and afterwards every
draw returns `A`. -/
theorem C11_zero_weight_never_drawn (G : SlimGlobal) (id : Int) (cats : List MutationTypePtr)
    (ws : List Double) (g0 : GenomicElementType) (alloc : Nat) (calls : List Call)
    (table : gsl_ran_discrete_t) (drawn : Nat)
    (hnew : GenomicElementType.new id cats ws = .value g0)
    (hdrawable : (World.run G ⟨g0, alloc⟩ calls).self.lookup_mutation_type_ = some table)
    (hdrawn : gsl_ran_discrete_returns table drawn = true) :
    (∃ p w, (World.run G ⟨g0, alloc⟩ calls).self.DrawMutationType drawn = .value p ∧
      (World.run G ⟨g0, alloc⟩ calls).self.mutation_type_ptrs_[drawn]? = some p ∧
      (World.run G ⟨g0, alloc⟩ calls).self.mutation_fractions_[drawn]? = some w ∧
      w.gt0 = true) ∧
    (∀ (A B : MutationTypePtr) (p_interpreter : EidosInterpreter), A ≠ B →
      ∃ g1 g2, GenomicElementType.new id [A, B] [.finite 0, .finite 0] = .value g1 ∧
        (∀ k, g1.DrawMutationType k = .terminated .SamplingError) ∧
        g1.ExecuteInstanceMethod G .gID_setMutationFractions (.Object_vector [A, B])
          (.Float_vector [.finite 1, .finite 0]) p_interpreter =
            (.value .gStaticEidosValueNULLInvisible, g2) ∧
        ∃ table2, g2.lookup_mutation_type_ = some table2 ∧
          ∀ k, gsl_ran_discrete_returns table2 k = true → g2.DrawMutationType k = .value A) := by
  refine ⟨?_, ?_⟩
  · obtain ⟨hinv, hlen0⟩ := new_inv id cats ws g0 hnew
    have hwd := World.run_withDraws G ⟨g0, alloc⟩ calls hinv
    have hlen := World.run_lengths G ⟨g0, alloc⟩ calls hlen0
    obtain ⟨hP, _⟩ := lookup_eq_some _ table hwd hdrawable
    unfold gsl_ran_discrete_returns at hdrawn
    rw [hP] at hdrawn
    cases hw : (World.run G ⟨g0, alloc⟩ calls).self.mutation_fractions_[drawn]? with
    | none => simp [hw] at hdrawn
    | some w =>
      simp only [hw] at hdrawn
      have hlt : drawn < (World.run G ⟨g0, alloc⟩ calls).self.mutation_fractions_.length := by
        by_contra hge
        rw [List.getElem?_eq_none (by omega)] at hw
        cases hw
      have hp : (World.run G ⟨g0, alloc⟩ calls).self.mutation_type_ptrs_[drawn]? =
          some ((World.run G ⟨g0, alloc⟩ calls).self.mutation_type_ptrs_[drawn]) :=
        List.getElem?_eq_getElem (by omega)
      refine ⟨_, w, ?_, hp, rfl, hdrawn⟩
      simp [DrawMutationType, hdrawable, hp]
  · intro A B I hAB
    have hz : ∀ w ∈ ([.finite 0, .finite 0] : List Double), w.ge0 = true := by decide
    have hnew1 := new_of_valid id [A, B] [.finite 0, .finite 0] rfl (by decide)
    have hexec := (setMutationFractions_ok_iff G
      (withDraws
        { lookup_mutation_type_ := none, cached_value_getype_id_ := none,
          genomic_element_type_id_ := id, mutation_type_ptrs_ := [A, B],
          mutation_fractions_ := [.finite 0, .finite 0], tag_value_ := tag_value_default })
      (.Object_vector [A, B]) [.finite 1, .finite 0] [A, B] I
      (setMutationFractions_mutation_types_Object_vector G I [A, B])).mpr
      ⟨rfl, by decide, by simp [hAB]⟩
    refine ⟨_, _, hnew1, ?_, hexec, ⟨2, [.finite 1, .finite 0]⟩, ?_, ?_⟩
    · intro k
      rw [DrawMutationType_SamplingError_iff]
      simp [withDraws, Double.gt0]
    · simp [withDraws, Double.gt0]
    · intro k hk
      unfold gsl_ran_discrete_returns at hk
      match k, hk with
      | 0, _ => simp [DrawMutationType, withDraws, Double.gt0]
      | 1, hk => simp [Double.gt0] at hk
      | k + 2, hk => simp at hk

/-- C11, witness: constructed from `[A,B]`, `[0,0]`, then `setMutationFractions([A,B], [1,0])`;
the draw can return index 0 only, and the category drawn is `A`. -/
theorem C11_zero_weight_never_drawn_witness :
    GenomicElementType.new 7 [⟨1⟩, ⟨2⟩] [.finite 0, .finite 0] =
      .value (GenomicElementType.mk none none 7 [⟨1⟩, ⟨2⟩] [.finite 0, .finite 0] 0) ∧
    (World.run ⟨fun _ => true, fun _ => true⟩
      ⟨GenomicElementType.mk none none 7 [⟨1⟩, ⟨2⟩] [.finite 0, .finite 0] 0, 0⟩
      [.ExecuteInstanceMethod .gID_setMutationFractions (.Object_vector [⟨1⟩, ⟨2⟩])
        (.Float_vector [.finite 1, .finite 0]) ⟨none⟩]).self.lookup_mutation_type_ =
      some ⟨2, [.finite 1, .finite 0]⟩ ∧
    gsl_ran_discrete_returns ⟨2, [.finite 1, .finite 0]⟩ 0 = true ∧
    gsl_ran_discrete_returns ⟨2, [.finite 1, .finite 0]⟩ 1 = false ∧
    ∃ p w, (World.run ⟨fun _ => true, fun _ => true⟩
        ⟨GenomicElementType.mk none none 7 [⟨1⟩, ⟨2⟩] [.finite 0, .finite 0] 0, 0⟩
        [.ExecuteInstanceMethod .gID_setMutationFractions (.Object_vector [⟨1⟩, ⟨2⟩])
          (.Float_vector [.finite 1, .finite 0]) ⟨none⟩]).self.DrawMutationType 0 = .value p ∧
      (World.run ⟨fun _ => true, fun _ => true⟩
        ⟨GenomicElementType.mk none none 7 [⟨1⟩, ⟨2⟩] [.finite 0, .finite 0] 0, 0⟩
        [.ExecuteInstanceMethod .gID_setMutationFractions (.Object_vector [⟨1⟩, ⟨2⟩])
          (.Float_vector [.finite 1, .finite 0]) ⟨none⟩]).self.mutation_type_ptrs_[0]? = some p ∧
      (World.run ⟨fun _ => true, fun _ => true⟩
        ⟨GenomicElementType.mk none none 7 [⟨1⟩, ⟨2⟩] [.finite 0, .finite 0] 0, 0⟩
        [.ExecuteInstanceMethod .gID_setMutationFractions (.Object_vector [⟨1⟩, ⟨2⟩])
          (.Float_vector [.finite 1, .finite 0]) ⟨none⟩]).self.mutation_fractions_[0]? = some w ∧
      w.gt0 = true :=
  ⟨by decide, by decide, by decide, by decide,
    (C11_zero_weight_never_drawn ⟨fun _ => true, fun _ => true⟩ 7 [⟨1⟩, ⟨2⟩]
      [.finite 0, .finite 0] _ 0 _ ⟨2, [.finite 1, .finite 0]⟩ 0 (by decide) (by decide)
      (by decide)).1⟩

/-- C12 — the sampler always matches the current configuration, so a draw cannot index
out of range. In every state reached from a successful construction by any sequence of
calls in which the lookup table is present, the table was built from exactly the current
weights, and its size is the number of weights and the number of categories; hence, for
every index smaller than that size, `DrawMutationType` returns an element of the current
categories, the one stored at that index. -/
theorem C12_sampler_matches_configuration (G : SlimGlobal) (id : Int)
    (cats : List MutationTypePtr) (ws : List Double) (g0 : GenomicElementType) (alloc : Nat)
    (calls : List Call) (table : gsl_ran_discrete_t)
    (hnew : GenomicElementType.new id cats ws = .value g0)
    (hpresent : (World.run G ⟨g0, alloc⟩ calls).self.lookup_mutation_type_ = some table) :
    table.P = (World.run G ⟨g0, alloc⟩ calls).self.mutation_fractions_ ∧
    table.K = (World.run G ⟨g0, alloc⟩ calls).self.mutation_fractions_.length ∧
    table.K = (World.run G ⟨g0, alloc⟩ calls).self.mutation_type_ptrs_.length ∧
    ∀ drawn, drawn < table.K →
      ∃ p, p ∈ (World.run G ⟨g0, alloc⟩ calls).self.mutation_type_ptrs_ ∧
        (World.run G ⟨g0, alloc⟩ calls).self.mutation_type_ptrs_[drawn]? = some p ∧
        (World.run G ⟨g0, alloc⟩ calls).self.DrawMutationType drawn = .value p := by
  obtain ⟨hinv, hlen0⟩ := new_inv id cats ws g0 hnew
  have hwd := World.run_withDraws G ⟨g0, alloc⟩ calls hinv
  have hlen := World.run_lengths G ⟨g0, alloc⟩ calls hlen0
  obtain ⟨hP, hK⟩ := lookup_eq_some _ table hwd hpresent
  refine ⟨hP, by rw [hK, hlen], hK, ?_⟩
  intro drawn hd
  rw [hK] at hd
  have hp : (World.run G ⟨g0, alloc⟩ calls).self.mutation_type_ptrs_[drawn]? =
      some ((World.run G ⟨g0, alloc⟩ calls).self.mutation_type_ptrs_[drawn]) :=
    List.getElem?_eq_getElem hd
  refine ⟨_, List.getElem_mem _, hp, ?_⟩
  simp [DrawMutationType, hpresent, hp]

/-- C12, witness: constructed from `[A,B]`, `[1,2]`, then a failing `setMutationFractions`, a
tag write and `setMutationFractions([C], [3])`. -/
theorem C12_sampler_matches_configuration_witness :
    (⟨1, [.finite 3]⟩ : gsl_ran_discrete_t).P =
      (World.run ⟨fun _ => true, fun _ => true⟩
        ⟨GenomicElementType.mk (some ⟨2, [.finite 1, .finite 2]⟩) none 7 [⟨1⟩, ⟨2⟩]
          [.finite 1, .finite 2] 0, 0⟩
        [.ExecuteInstanceMethod .gID_setMutationFractions (.Object_vector [⟨1⟩, ⟨1⟩])
            (.Float_vector [.finite 1, .finite 1]) ⟨none⟩,
          .SetProperty .gID_tag (.Int_singleton 5),
          .ExecuteInstanceMethod .gID_setMutationFractions (.Object_vector [⟨3⟩])
            (.Float_vector [.finite 3]) ⟨none⟩]).self.mutation_fractions_ ∧
    (⟨1, [.finite 3]⟩ : gsl_ran_discrete_t).K =
      (World.run ⟨fun _ => true, fun _ => true⟩
        ⟨GenomicElementType.mk (some ⟨2, [.finite 1, .finite 2]⟩) none 7 [⟨1⟩, ⟨2⟩]
          [.finite 1, .finite 2] 0, 0⟩
        [.ExecuteInstanceMethod .gID_setMutationFractions (.Object_vector [⟨1⟩, ⟨1⟩])
            (.Float_vector [.finite 1, .finite 1]) ⟨none⟩,
          .SetProperty .gID_tag (.Int_singleton 5),
          .ExecuteInstanceMethod .gID_setMutationFractions (.Object_vector [⟨3⟩])
            (.Float_vector [.finite 3]) ⟨none⟩]).self.mutation_fractions_.length ∧
    (⟨1, [.finite 3]⟩ : gsl_ran_discrete_t).K =
      (World.run ⟨fun _ => true, fun _ => true⟩
        ⟨GenomicElementType.mk (some ⟨2, [.finite 1, .finite 2]⟩) none 7 [⟨1⟩, ⟨2⟩]
          [.finite 1, .finite 2] 0, 0⟩
        [.ExecuteInstanceMethod .gID_setMutationFractions (.Object_vector [⟨1⟩, ⟨1⟩])
            (.Float_vector [.finite 1, .finite 1]) ⟨none⟩,
          .SetProperty .gID_tag (.Int_singleton 5),
          .ExecuteInstanceMethod .gID_setMutationFractions (.Object_vector [⟨3⟩])
            (.Float_vector [.finite 3]) ⟨none⟩]).self.mutation_type_ptrs_.length ∧
    ∀ drawn, drawn < (⟨1, [.finite 3]⟩ : gsl_ran_discrete_t).K →
      ∃ p, p ∈ (World.run ⟨fun _ => true, fun _ => true⟩
        ⟨GenomicElementType.mk (some ⟨2, [.finite 1, .finite 2]⟩) none 7 [⟨1⟩, ⟨2⟩]
          [.finite 1, .finite 2] 0, 0⟩
        [.ExecuteInstanceMethod .gID_setMutationFractions (.Object_vector [⟨1⟩, ⟨1⟩])
            (.Float_vector [.finite 1, .finite 1]) ⟨none⟩,
          .SetProperty .gID_tag (.Int_singleton 5),
          .ExecuteInstanceMethod .gID_setMutationFractions (.Object_vector [⟨3⟩])
            (.Float_vector [.finite 3]) ⟨none⟩]).self.mutation_type_ptrs_ ∧
        (World.run ⟨fun _ => true, fun _ => true⟩
        ⟨GenomicElementType.mk (some ⟨2, [.finite 1, .finite 2]⟩) none 7 [⟨1⟩, ⟨2⟩]
          [.finite 1, .finite 2] 0, 0⟩
        [.ExecuteInstanceMethod .gID_setMutationFractions (.Object_vector [⟨1⟩, ⟨1⟩])
            (.Float_vector [.finite 1, .finite 1]) ⟨none⟩,
          .SetProperty .gID_tag (.Int_singleton 5),
          .ExecuteInstanceMethod .gID_setMutationFractions (.Object_vector [⟨3⟩])
            (.Float_vector [.finite 3]) ⟨none⟩]).self.mutation_type_ptrs_[drawn]? = some p ∧
        (World.run ⟨fun _ => true, fun _ => true⟩
        ⟨GenomicElementType.mk (some ⟨2, [.finite 1, .finite 2]⟩) none 7 [⟨1⟩, ⟨2⟩]
          [.finite 1, .finite 2] 0, 0⟩
        [.ExecuteInstanceMethod .gID_setMutationFractions (.Object_vector [⟨1⟩, ⟨1⟩])
            (.Float_vector [.finite 1, .finite 1]) ⟨none⟩,
          .SetProperty .gID_tag (.Int_singleton 5),
          .ExecuteInstanceMethod .gID_setMutationFractions (.Object_vector [⟨3⟩])
            (.Float_vector [.finite 3]) ⟨none⟩]).self.DrawMutationType drawn = .value p :=
  C12_sampler_matches_configuration ⟨fun _ => true, fun _ => true⟩ 7 [⟨1⟩, ⟨2⟩]
    [.finite 1, .finite 2] _ 0 _ ⟨1, [.finite 3]⟩ (by decide) (by decide)

/-- C13 — `SetProperty` never touches the configuration: for every descriptor, identifier
and value, the id, the mutation types, the fractions, the lookup table and the cached id
value are left as they were, so with the identifier `tag` only the tag can change; with
any other identifier (the read-only `id`, `mutationTypes` and `mutationFractions` among
them) the descriptor is left equal in every member and the request is handed to the base
class. -/
theorem C13_SetProperty_frame (G : SlimGlobal) (self : GenomicElementType)
    (p_property_id : EidosGlobalStringID) (p_value : EidosValue) :
    (self.SetProperty G p_property_id p_value).2.genomic_element_type_id_ =
      self.genomic_element_type_id_ ∧
    (self.SetProperty G p_property_id p_value).2.mutation_type_ptrs_ = self.mutation_type_ptrs_ ∧
    (self.SetProperty G p_property_id p_value).2.mutation_fractions_ =
      self.mutation_fractions_ ∧
    (self.SetProperty G p_property_id p_value).2.lookup_mutation_type_ =
      self.lookup_mutation_type_ ∧
    (self.SetProperty G p_property_id p_value).2.cached_value_getype_id_ =
      self.cached_value_getype_id_ ∧
    (p_property_id ≠ .gID_tag →
      self.SetProperty G p_property_id p_value = (.baseClass, self)) := by
  refine ⟨?_, ?_, ?_, ?_, ?_, ?_⟩
  all_goals first
    | (rcases SetProperty_cases G self p_property_id p_value with hs | ⟨t, _, hs⟩ <;> rw [hs])
    | (intro hne
       unfold SetProperty
       cases p_property_id <;> first | rfl | exact absurd rfl hne)

/-- C13, witness: writes of `id`, of `mutationFractions` and of an unknown identifier are
handed to the base class and change nothing; a write of `tag` changes the tag only. -/
theorem C13_SetProperty_frame_witness :
    (GenomicElementType.mk (some ⟨1, [.finite 2]⟩) none 7 [⟨2⟩] [.finite 2] 42).SetProperty
        ⟨fun _ => true, fun _ => true⟩ .gID_id (.Int_singleton 9) =
      (.baseClass, GenomicElementType.mk (some ⟨1, [.finite 2]⟩) none 7 [⟨2⟩] [.finite 2] 42) ∧
    (GenomicElementType.mk (some ⟨1, [.finite 2]⟩) none 7 [⟨2⟩] [.finite 2] 42).SetProperty
        ⟨fun _ => true, fun _ => true⟩ .gID_mutationFractions (.Float_vector [.finite 1]) =
      (.baseClass, GenomicElementType.mk (some ⟨1, [.finite 2]⟩) none 7 [⟨2⟩] [.finite 2] 42) ∧
    (GenomicElementType.mk (some ⟨1, [.finite 2]⟩) none 7 [⟨2⟩] [.finite 2] 42).SetProperty
        ⟨fun _ => true, fun _ => true⟩ (.other 99) .NULL =
      (.baseClass, GenomicElementType.mk (some ⟨1, [.finite 2]⟩) none 7 [⟨2⟩] [.finite 2] 42) ∧
    (GenomicElementType.mk (some ⟨1, [.finite 2]⟩) none 7 [⟨2⟩] [.finite 2] 42).SetProperty
        ⟨fun _ => true, fun _ => true⟩ .gID_tag (.Int_singleton 5) =
      (.value (), GenomicElementType.mk (some ⟨1, [.finite 2]⟩) none 7 [⟨2⟩] [.finite 2] 5) :=
  ⟨(C13_SetProperty_frame _ _ .gID_id _).2.2.2.2.2 (by decide),
    (C13_SetProperty_frame _ _ .gID_mutationFractions _).2.2.2.2.2 (by decide),
    (C13_SetProperty_frame _ _ (.other 99) _).2.2.2.2.2 (by decide), by decide⟩

/-! ## The first failing index of `setMutationFractions` -/

theorem GenomicElementType.setMutationFractions_cells_prefix (ws : List Double)
    (ps mts : List MutationTypePtr) (mfs : List Double)
    (rest : List (Except Error Double × Except Error MutationTypePtr))
    (hlen : ps.length = ws.length) (hneg : ∀ w ∈ ws, w.lt0 = false)
    (hnd : (mts ++ ps).Nodup) :
    setMutationFractions_cells (List.zip (ws.map Except.ok) (ps.map Except.ok) ++ rest) mts mfs =
      setMutationFractions_cells rest (mts ++ ps) (mfs ++ ws) := by
  induction ws generalizing ps mts mfs with
  | nil =>
    have : ps = [] := List.length_eq_zero.mp (by simpa using hlen)
    subst this
    simp
  | cons w ws ih =>
    cases ps with
    | nil => simp at hlen
    | cons p ps =>
      have hw : w.lt0 = false := hneg w (by simp)
      have hp : p ∉ mts := by
        intro hmem
        rw [List.nodup_append] at hnd
        exact hnd.2.2 hmem (by simp)
      have key := ih ps (mts ++ [p]) (mfs ++ [w]) (by simpa using hlen)
        (fun x hx => hneg x (by simp [hx])) (by simpa using hnd)
      simp only [List.map_cons, List.zip_cons_cons, List.cons_append, setMutationFractions_cells,
        hw, hp, Bool.false_eq_true, if_false]
      simpa [List.zip] using key

/-- The loop, once the indices below `i` have passed every check with the weights `ws` and
the mutation types `ps`, is the loop body at index `i` with `ps` and `ws` in the local
vectors. -/
theorem GenomicElementType.setMutationFractions_loop_at (G : SlimGlobal) (I : EidosInterpreter)
    (a0 a1 : EidosValue) (n i : Nat) (ws : List Double) (ps : List MutationTypePtr)
    (hi : i < n)
    (hF : (List.range i).map a1.FloatAtIndex = ws.map Except.ok)
    (hR : (List.range i).map (setMutationFractions_mutation_type_ptr G I a0) = ps.map Except.ok)
    (hneg : ∀ w ∈ ws, w.lt0 = false) (hnd : ps.Nodup) :
    setMutationFractions_loop G I a0 a1 n 0 [] [] =
      setMutationFractions_loop G I a0 a1 (n - i) i ps ws := by
  have hlw : ws.length = i := by
    have := congrArg List.length hF
    simpa using this.symm
  have hlp : ps.length = i := by
    have := congrArg List.length hR
    simpa using this.symm
  rw [setMutationFractions_loop_eq_cells, setMutationFractions_loop_eq_cells]
  have hsplit : List.range' 0 n = List.range' 0 i ++ List.range' i (n - i) := by
    have := List.range'_append_1 0 i (n - i)
    simp only [Nat.zero_add] at this
    rw [this]
    congr 1
    omega
  rw [hsplit, List.map_append, ← List.range_eq_range', ← List.zip_map', hF, hR,
    setMutationFractions_cells_prefix ws ps [] [] _ (by rw [hlw, hlp]) hneg (by simpa using hnd)]
  simp

theorem GenomicElementType.ExecuteInstanceMethod_of_loop_error (G : SlimGlobal)
    (self : GenomicElementType) (a0 a1 : EidosValue) (I : EidosInterpreter) (e : Error)
    (hc : a0.Count = a1.Count)
    (hl : setMutationFractions_loop G I a0 a1 a0.Count 0 [] [] = .error e) :
    self.ExecuteInstanceMethod G .gID_setMutationFractions a0 a1 I = (.terminated e, self) := by
  unfold ExecuteInstanceMethod
  simp only [if_true, hc, ne_eq, not_true_eq_false, if_false]
  rw [← hc, hl]

theorem GenomicElementType.setMutationFractions_mutation_type_ptr_not_defined (G : SlimGlobal)
    (I : EidosInterpreter) (a0 : EidosValue) (i : Nat) (v : Int)
    (hint : a0.isInt = true) (hv : a0.IntAtIndex i = .ok v) (hr : G.objectid_in_range v = true)
    (hsim : ∀ sim, I.GetEidosContext = some sim → sim.MutationTypes.lookup v = none) :
    setMutationFractions_mutation_type_ptr G I a0 i = .error (.NotDefinedError v) := by
  unfold setMutationFractions_mutation_type_ptr
  simp only [hint, if_true, hv, SLiMCastToObjectidTypeOrRaise, hr]
  cases hctx : I.GetEidosContext with
  | none => rfl
  | some sim => simp [hsim sim hctx]

/-- C14 — within `setMutationFractions` the per-element checks are interleaved in one pass.
Let the lengths be equal and let every check pass at the indices below `i` (the weights
read there, `ws`, are not `< 0`, the categories read there resolve to `ps`, and no
category occurs twice in `ps`). Then the call ends at index `i` as follows, whatever the
arguments hold at larger indices: (1) if weight `i` is `< 0`, with the negative weight
error, whatever category `i` is; (2) otherwise, if category `i` is an integer id in range
that the simulation does not define, with the not-defined error; (3) otherwise, if
reading category `i` raises any error, with that error; (4) otherwise, if category `i` is
already among `ps`, with the duplicate error. In each case the descriptor is unchanged. -/
theorem C14_setMutationFractions_first_failing_index (G : SlimGlobal)
    (self : GenomicElementType) (arg0_value arg1_value : EidosValue)
    (p_interpreter : EidosInterpreter) (i : Nat) (ws : List Double) (ps : List MutationTypePtr)
    (hc : arg0_value.Count = arg1_value.Count) (hi : i < arg0_value.Count)
    (hF : (List.range i).map arg1_value.FloatAtIndex = ws.map Except.ok)
    (hR : (List.range i).map (setMutationFractions_mutation_type_ptr G p_interpreter arg0_value) =
      ps.map Except.ok)
    (hneg : ∀ w ∈ ws, w.lt0 = false) (hnd : ps.Nodup) :
    (∀ w, arg1_value.FloatAtIndex i = .ok w → w.lt0 = true →
      self.ExecuteInstanceMethod G .gID_setMutationFractions arg0_value arg1_value
        p_interpreter = (.terminated (.NegativeWeightError w), self)) ∧
    (∀ w v, arg1_value.FloatAtIndex i = .ok w → w.lt0 = false →
      arg0_value.isInt = true → arg0_value.IntAtIndex i = .ok v →
      G.objectid_in_range v = true →
      (∀ sim, p_interpreter.GetEidosContext = some sim → sim.MutationTypes.lookup v = none) →
      self.ExecuteInstanceMethod G .gID_setMutationFractions arg0_value arg1_value
        p_interpreter = (.terminated (.NotDefinedError v), self)) ∧
    (∀ w e, arg1_value.FloatAtIndex i = .ok w → w.lt0 = false →
      setMutationFractions_mutation_type_ptr G p_interpreter arg0_value i = .error e →
      self.ExecuteInstanceMethod G .gID_setMutationFractions arg0_value arg1_value
        p_interpreter = (.terminated e, self)) ∧
    (∀ w p, arg1_value.FloatAtIndex i = .ok w → w.lt0 = false →
      setMutationFractions_mutation_type_ptr G p_interpreter arg0_value i = .ok p → p ∈ ps →
      self.ExecuteInstanceMethod G .gID_setMutationFractions arg0_value arg1_value
        p_interpreter = (.terminated (.DuplicateCategoryError p), self)) := by
  have hat := setMutationFractions_loop_at G p_interpreter arg0_value arg1_value
    arg0_value.Count i ws ps hi hF hR hneg hnd
  obtain ⟨m, hm⟩ : ∃ m, arg0_value.Count - i = m + 1 := ⟨arg0_value.Count - i - 1, by omega⟩
  rw [hm] at hat
  have h3 : ∀ w e, arg1_value.FloatAtIndex i = .ok w → w.lt0 = false →
      setMutationFractions_mutation_type_ptr G p_interpreter arg0_value i = .error e →
      self.ExecuteInstanceMethod G .gID_setMutationFractions arg0_value arg1_value
        p_interpreter = (.terminated e, self) := by
    intro w e hw hlt he
    apply ExecuteInstanceMethod_of_loop_error G self _ _ _ _ hc
    rw [hat]
    simp [setMutationFractions_loop, hw, hlt, he]
  refine ⟨?_, ?_, h3, ?_⟩
  · intro w hw hlt
    apply ExecuteInstanceMethod_of_loop_error G self _ _ _ _ hc
    rw [hat]
    simp [setMutationFractions_loop, hw, hlt]
  · intro w v hw hlt hint hv hr hsim
    exact h3 w _ hw hlt (setMutationFractions_mutation_type_ptr_not_defined G p_interpreter
      arg0_value i v hint hv hr hsim)
  · intro w p hw hlt hp hmem
    apply ExecuteInstanceMethod_of_loop_error G self _ _ _ _ hc
    rw [hat]
    simp [setMutationFractions_loop, hw, hlt, hp, hmem]

/-- C14, witness: `[A,A,B]`, `[1,1,-1]` ends at index 1 with the duplicate error; `[A,A]`,
`[1,-1]` ends at index 1 with the negative weight error; the ids `[5,6]` with `[1,1]`, where
the simulation defines only `m5`, end at index 1 with the not-defined error. -/
theorem C14_setMutationFractions_first_failing_index_witness :
    (GenomicElementType.mk none none 7 [] [] 0).ExecuteInstanceMethod
        ⟨fun _ => true, fun _ => true⟩ .gID_setMutationFractions
        (.Object_vector [⟨1⟩, ⟨1⟩, ⟨2⟩]) (.Float_vector [.finite 1, .finite 1, .finite (-1)])
        ⟨none⟩ =
      (.terminated (.DuplicateCategoryError ⟨1⟩), GenomicElementType.mk none none 7 [] [] 0) ∧
    (GenomicElementType.mk none none 7 [] [] 0).ExecuteInstanceMethod
        ⟨fun _ => true, fun _ => true⟩ .gID_setMutationFractions
        (.Object_vector [⟨1⟩, ⟨1⟩]) (.Float_vector [.finite 1, .finite (-1)]) ⟨none⟩ =
      (.terminated (.NegativeWeightError (.finite (-1))),
        GenomicElementType.mk none none 7 [] [] 0) ∧
    (GenomicElementType.mk none none 7 [] [] 0).ExecuteInstanceMethod
        ⟨fun _ => true, fun _ => true⟩ .gID_setMutationFractions
        (.Int_vector [5, 6]) (.Float_vector [.finite 1, .finite 1]) ⟨some ⟨[(5, ⟨1⟩)]⟩⟩ =
      (.terminated (.NotDefinedError 6), GenomicElementType.mk none none 7 [] [] 0) :=
  ⟨(C14_setMutationFractions_first_failing_index ⟨fun _ => true, fun _ => true⟩ _
      (.Object_vector [⟨1⟩, ⟨1⟩, ⟨2⟩]) (.Float_vector [.finite 1, .finite 1, .finite (-1)])
      ⟨none⟩ 1 [.finite 1] [⟨1⟩] (by decide) (by decide) rfl rfl (by decide)
      (by decide)).2.2.2 (.finite 1) ⟨1⟩ rfl (by decide) rfl (by decide),
    (C14_setMutationFractions_first_failing_index ⟨fun _ => true, fun _ => true⟩ _
      (.Object_vector [⟨1⟩, ⟨1⟩]) (.Float_vector [.finite 1, .finite (-1)])
      ⟨none⟩ 1 [.finite 1] [⟨1⟩] (by decide) (by decide) rfl rfl (by decide)
      (by decide)).1 (.finite (-1)) rfl (by decide),
    (C14_setMutationFractions_first_failing_index ⟨fun _ => true, fun _ => true⟩ _
      (.Int_vector [5, 6]) (.Float_vector [.finite 1, .finite 1])
      ⟨some ⟨[(5, ⟨1⟩)]⟩⟩ 1 [.finite 1] [⟨1⟩] (by decide) (by decide) rfl rfl (by decide)
      (by decide)).2.1 (.finite 1) 6 rfl (by decide) rfl rfl rfl
      (by intro sim hsim; cases hsim; rfl)⟩

theorem GenomicElementType.InitializeDraws_of_none_positive (self : GenomicElementType)
    (hlen : self.mutation_type_ptrs_.length = self.mutation_fractions_.length)
    (hpos : self.mutation_fractions_.any Double.gt0 = false) :
    self.InitializeDraws = (.value (), { self with lookup_mutation_type_ := none }) := by
  unfold InitializeDraws
  simp only [hlen, ne_eq, not_true_eq_false, if_false, InitializeDraws_foldl, List.nil_append,
    Bool.false_or, hpos, Bool.false_eq_true]
  split <;> rfl

/-- C15 — construction enforces the length pairing. When the two lists differ in length,
`InitializeDraws` terminates with its sizes error before it touches the lookup table,
which is still absent, and construction fails with that error. When they have equal
lengths and no weight is `> 0` (two empty lists among them), construction succeeds and
the lookup table is absent. -/
theorem C15_construction_length_pairing (id : Int) (cats : List MutationTypePtr)
    (ws : List Double) :
    (cats.length ≠ ws.length →
      GenomicElementType.new id cats ws = .terminated .InitializeDraws_sizes ∧
      InitializeDraws (GenomicElementType.mk none none id cats ws tag_value_default) =
        (.terminated .InitializeDraws_sizes,
          GenomicElementType.mk none none id cats ws tag_value_default)) ∧
    (cats.length = ws.length → (∀ w ∈ ws, w.gt0 = false) →
      GenomicElementType.new id cats ws =
        .value (GenomicElementType.mk none none id cats ws tag_value_default)) := by
  refine ⟨?_, ?_⟩
  · intro hne
    have h := InitializeDraws_of_sizes (GenomicElementType.mk none none id cats ws tag_value_default)
      hne
    refine ⟨?_, h⟩
    unfold GenomicElementType.new
    simp only []
    rw [h]
  · intro hlen hpos
    have hany : ws.any Double.gt0 = false := by
      rw [List.any_eq_false]
      intro w hw
      simp [hpos w hw]
    have h := InitializeDraws_of_none_positive
      (GenomicElementType.mk none none id cats ws tag_value_default) hlen hany
    unfold GenomicElementType.new
    simp only []
    rw [h]

/-- C15, witness: `[A,B,C]`, `[1,1]` fails; two empty lists, `[A,B]`, `[0,0]` and `[A]`, `[-1]`
construct without a lookup table. -/
theorem C15_construction_length_pairing_witness :
    (GenomicElementType.new 7 [⟨1⟩, ⟨2⟩, ⟨3⟩] [.finite 1, .finite 1] =
        .terminated .InitializeDraws_sizes ∧
      InitializeDraws (GenomicElementType.mk none none 7 [⟨1⟩, ⟨2⟩, ⟨3⟩] [.finite 1, .finite 1]
          tag_value_default) =
        (.terminated .InitializeDraws_sizes,
          GenomicElementType.mk none none 7 [⟨1⟩, ⟨2⟩, ⟨3⟩] [.finite 1, .finite 1]
            tag_value_default)) ∧
    GenomicElementType.new 7 [] [] = .value (GenomicElementType.mk none none 7 [] []
      tag_value_default) ∧
    GenomicElementType.new 7 [⟨1⟩, ⟨2⟩] [.finite 0, .finite 0] =
      .value (GenomicElementType.mk none none 7 [⟨1⟩, ⟨2⟩] [.finite 0, .finite 0]
        tag_value_default) ∧
    GenomicElementType.new 7 [⟨1⟩] [.finite (-1)] =
      .value (GenomicElementType.mk none none 7 [⟨1⟩] [.finite (-1)] tag_value_default) :=
  ⟨(C15_construction_length_pairing 7 [⟨1⟩, ⟨2⟩, ⟨3⟩] [.finite 1, .finite 1]).1 (by decide),
    (C15_construction_length_pairing 7 [] []).2 rfl (by decide),
    (C15_construction_length_pairing 7 [⟨1⟩, ⟨2⟩] [.finite 0, .finite 0]).2 rfl (by decide),
    (C15_construction_length_pairing 7 [⟨1⟩] [.finite (-1)]).2 rfl (by decide)⟩

end SLiM
